import Mathlib

/-!
Verification of the progressive-discovery / dynamic-dispatch core of an
MCP server for SAP BTP OData services.

The definitions below are a shallow embedding of the TypeScript sources:
  - dist/tools/hierarchical-tool-registry.js (categorizer, Stage 1 search,
    Stage 2 metadata, Stage 3 dispatcher, key building and formatting)
  - src/tools/sap-tool-registry.ts (tool-name allocator, buildQueryOptions)
  - src/services/sap-client.ts (response-payload shaping of the transport
    wrappers)

JavaScript strings are modelled as Lean strings, JS objects as association
lists in insertion order, JS numbers appearing as scores as exact hundredths
(Nat), and fallible code as Except.  Theorems about each specification claim
follow the definitions.
-/

namespace SapMcp

/-- The single-quote character (code 39). -/
def apos : Char := Char.ofNat 39

/-- JS `String.prototype.toLowerCase` (ASCII case folding, which is all the
source feeds it). -/
def lowerStr (s : String) : String := String.mk (s.data.map Char.toLower)

/-- JS `String.prototype.includes`: substring containment. -/
def containsSub (hay needle : String) : Bool :=
  hay.data.tails.any (fun t => needle.data.isPrefixOf t)

/-- JS `String.prototype.startsWith`. -/
def startsWithStr (s pre : String) : Bool := pre.data.isPrefixOf s.data

/-- JS `Array.prototype.join(sep)` over strings. -/
def joinSep (sep : String) : List String → String
  | [] => ""
  | [x] => x
  | x :: xs => x ++ sep ++ joinSep sep xs

/-- A JS runtime value, as far as the dispatcher inspects one. -/
inductive JVal where
  | str (s : String)
  | num (n : Int)
  | boolean (b : Bool)
  | jnull
  | undefVal
  | obj (fields : List (String × JVal))
  | arr (elems : List JVal)
deriving Repr

mutual

/-- Structural equality test for `JVal` (JS deep equality is never used by the
source; this is only the mathematical equality of the model). -/
def JVal.beq : JVal → JVal → Bool
  | .str a, .str b => a == b
  | .num a, .num b => a == b
  | .boolean a, .boolean b => a == b
  | .jnull, .jnull => true
  | .undefVal, .undefVal => true
  | .obj a, .obj b => JVal.beqFields a b
  | .arr a, .arr b => JVal.beqList a b
  | _, _ => false

def JVal.beqFields : List (String × JVal) → List (String × JVal) → Bool
  | [], [] => true
  | (k, v) :: xs, (k', v') :: ys =>
      k == k' && JVal.beq v v' && JVal.beqFields xs ys
  | _, _ => false

def JVal.beqList : List JVal → List JVal → Bool
  | [], [] => true
  | x :: xs, y :: ys => JVal.beq x y && JVal.beqList xs ys
  | _, _ => false

end

instance : BEq JVal := ⟨JVal.beq⟩

mutual

theorem JVal.beq_refl : ∀ v : JVal, JVal.beq v v = true
  | .str _ => by simp [JVal.beq]
  | .num _ => by simp [JVal.beq]
  | .boolean _ => by simp [JVal.beq]
  | .jnull => by simp [JVal.beq]
  | .undefVal => by simp [JVal.beq]
  | .obj fs => by simp [JVal.beq, JVal.beqFields_refl fs]
  | .arr xs => by simp [JVal.beq, JVal.beqList_refl xs]

theorem JVal.beqFields_refl : ∀ fs : List (String × JVal),
    JVal.beqFields fs fs = true
  | [] => by simp [JVal.beqFields]
  | (k, v) :: xs => by
      simp [JVal.beqFields, JVal.beq_refl v, JVal.beqFields_refl xs]

theorem JVal.beqList_refl : ∀ xs : List JVal, JVal.beqList xs xs = true
  | [] => by simp [JVal.beqList]
  | x :: xs => by simp [JVal.beqList, JVal.beq_refl x, JVal.beqList_refl xs]

end

mutual

theorem JVal.eq_of_beq : ∀ {a b : JVal}, JVal.beq a b = true → a = b
  | .str _, .str _, h => by
      simp [JVal.beq] at h; simp [h]
  | .num _, .num _, h => by
      simp [JVal.beq] at h; simp [h]
  | .boolean _, .boolean _, h => by
      simp [JVal.beq] at h; simp [h]
  | .jnull, .jnull, _ => rfl
  | .undefVal, .undefVal, _ => rfl
  | .obj _, .obj _, h => by
      simp only [JVal.beq] at h
      exact congrArg JVal.obj (JVal.eqFields_of_beq h)
  | .arr _, .arr _, h => by
      simp only [JVal.beq] at h
      exact congrArg JVal.arr (JVal.eqList_of_beq h)
  | .str _, .num _, h => by simp [JVal.beq] at h
  | .str _, .boolean _, h => by simp [JVal.beq] at h
  | .str _, .jnull, h => by simp [JVal.beq] at h
  | .str _, .undefVal, h => by simp [JVal.beq] at h
  | .str _, .obj _, h => by simp [JVal.beq] at h
  | .str _, .arr _, h => by simp [JVal.beq] at h
  | .num _, .str _, h => by simp [JVal.beq] at h
  | .num _, .boolean _, h => by simp [JVal.beq] at h
  | .num _, .jnull, h => by simp [JVal.beq] at h
  | .num _, .undefVal, h => by simp [JVal.beq] at h
  | .num _, .obj _, h => by simp [JVal.beq] at h
  | .num _, .arr _, h => by simp [JVal.beq] at h
  | .boolean _, .str _, h => by simp [JVal.beq] at h
  | .boolean _, .num _, h => by simp [JVal.beq] at h
  | .boolean _, .jnull, h => by simp [JVal.beq] at h
  | .boolean _, .undefVal, h => by simp [JVal.beq] at h
  | .boolean _, .obj _, h => by simp [JVal.beq] at h
  | .boolean _, .arr _, h => by simp [JVal.beq] at h
  | .jnull, .str _, h => by simp [JVal.beq] at h
  | .jnull, .num _, h => by simp [JVal.beq] at h
  | .jnull, .boolean _, h => by simp [JVal.beq] at h
  | .jnull, .undefVal, h => by simp [JVal.beq] at h
  | .jnull, .obj _, h => by simp [JVal.beq] at h
  | .jnull, .arr _, h => by simp [JVal.beq] at h
  | .undefVal, .str _, h => by simp [JVal.beq] at h
  | .undefVal, .num _, h => by simp [JVal.beq] at h
  | .undefVal, .boolean _, h => by simp [JVal.beq] at h
  | .undefVal, .jnull, h => by simp [JVal.beq] at h
  | .undefVal, .obj _, h => by simp [JVal.beq] at h
  | .undefVal, .arr _, h => by simp [JVal.beq] at h
  | .obj _, .str _, h => by simp [JVal.beq] at h
  | .obj _, .num _, h => by simp [JVal.beq] at h
  | .obj _, .boolean _, h => by simp [JVal.beq] at h
  | .obj _, .jnull, h => by simp [JVal.beq] at h
  | .obj _, .undefVal, h => by simp [JVal.beq] at h
  | .obj _, .arr _, h => by simp [JVal.beq] at h
  | .arr _, .str _, h => by simp [JVal.beq] at h
  | .arr _, .num _, h => by simp [JVal.beq] at h
  | .arr _, .boolean _, h => by simp [JVal.beq] at h
  | .arr _, .jnull, h => by simp [JVal.beq] at h
  | .arr _, .undefVal, h => by simp [JVal.beq] at h
  | .arr _, .obj _, h => by simp [JVal.beq] at h

theorem JVal.eqFields_of_beq : ∀ {a b : List (String × JVal)},
    JVal.beqFields a b = true → a = b
  | [], [], _ => rfl
  | (k, v) :: xs, (k', v') :: ys, h => by
      simp only [JVal.beqFields, Bool.and_eq_true, beq_iff_eq] at h
      obtain ⟨⟨h1, h2⟩, h3⟩ := h
      rw [h1, JVal.eq_of_beq h2, JVal.eqFields_of_beq h3]
  | [], _ :: _, h => by simp [JVal.beqFields] at h
  | _ :: _, [], h => by simp [JVal.beqFields] at h

theorem JVal.eqList_of_beq : ∀ {a b : List JVal},
    JVal.beqList a b = true → a = b
  | [], [], _ => rfl
  | x :: xs, y :: ys, h => by
      simp only [JVal.beqList, Bool.and_eq_true] at h
      obtain ⟨h1, h2⟩ := h
      rw [JVal.eq_of_beq h1, JVal.eqList_of_beq h2]
  | [], _ :: _, h => by simp [JVal.beqList] at h
  | _ :: _, [], h => by simp [JVal.beqList] at h

end

instance : DecidableEq JVal := fun a b =>
  if h : JVal.beq a b = true then
    .isTrue (JVal.eq_of_beq h)
  else
    .isFalse (fun he => h (he ▸ JVal.beq_refl a))

/-- JS `String(value)` for the values the key formatter can receive. -/
def JVal.toJsString : JVal → String
  | .str s => s
  | .num n => toString n
  | .boolean b => if b then "true" else "false"
  | .jnull => "null"
  | .undefVal => "undefined"
  | .obj _ => "[object Object]"
  | .arr _ => ""

/-- Truthiness of a JS value (only the cases the source tests). -/
def JVal.truthy : JVal → Bool
  | .str s => s ≠ ""
  | .num n => n ≠ 0
  | .boolean b => b
  | .jnull => false
  | .undefVal => false
  | .obj _ => true
  | .arr _ => true

/-- JS `key in object` for an object modelled as an association list. -/
def hasKey (fields : List (String × JVal)) (k : String) : Bool :=
  fields.any (fun kv => kv.1 == k)

/-- JS `object[key]` (first binding; JS object keys are unique). -/
def getKey (fields : List (String × JVal)) (k : String) : JVal :=
  match fields.find? (fun kv => kv.1 == k) with
  | some kv => kv.2
  | none => .undefVal

/-! ## Data model (dist/types, populated by discovery) -/

/-- One OData property of an entity type. -/
structure SProperty where
  name : String
  type : String
  nullable : Bool
  maxLength : Option Nat
deriving Repr, DecidableEq

/-- One entity type of a service, with capability flags. -/
structure SEntityType where
  name : String
  entitySet : String
  nspace : String
  properties : List SProperty
  keys : List String
  creatable : Bool
  updatable : Bool
  deletable : Bool
deriving Repr, DecidableEq

/-- Resolved service metadata (`metadata` slot of a discovered service). -/
structure SMetadata where
  entityTypes : List SEntityType
deriving Repr, DecidableEq

/-- A discovered service; `metadata` is `none` when resolution failed. -/
structure SService where
  id : String
  title : String
  description : String
  url : String
  odataVersion : String
  metadata : Option SMetadata
deriving Repr, DecidableEq

/-! ## Categorizer (`categorizeServices`) -/

/-- The category list computed for one service by `categorizeServices`
(hierarchical-tool-registry.js, constructor path): cascaded lower-cased
substring tests over id, title and description, defaulting to `all`. -/
def categorizeService (s : SService) : List String :=
  let id := lowerStr s.id
  let title := lowerStr s.title
  let desc := lowerStr s.description
  let categories :=
    (if containsSub id "business_partner" || containsSub id "bp_" ||
        containsSub id "customer" || containsSub id "supplier" ||
        containsSub title "business partner" || containsSub title "customer" ||
        containsSub title "supplier" then ["business-partner"] else []) ++
    (if containsSub id "sales" || containsSub id "order" ||
        containsSub id "quotation" || containsSub id "opportunity" ||
        containsSub title "sales" || containsSub title "order" ||
        containsSub desc "sales" then ["sales"] else []) ++
    (if containsSub id "finance" || containsSub id "accounting" ||
        containsSub id "payment" || containsSub id "invoice" ||
        containsSub id "gl_" || containsSub id "ar_" || containsSub id "ap_" ||
        containsSub title "finance" || containsSub title "accounting" ||
        containsSub title "payment" then ["finance"] else []) ++
    (if containsSub id "purchase" || containsSub id "procurement" ||
        containsSub id "vendor" || containsSub id "po_" ||
        containsSub title "procurement" || containsSub title "purchase" ||
        containsSub title "vendor" then ["procurement"] else []) ++
    (if containsSub id "employee" || containsSub id "hr_" ||
        containsSub id "personnel" || containsSub id "payroll" ||
        containsSub title "employee" || containsSub title "human" ||
        containsSub title "personnel" then ["hr"] else []) ++
    (if containsSub id "logistics" || containsSub id "warehouse" ||
        containsSub id "inventory" || containsSub id "material" ||
        containsSub id "wm_" || containsSub id "mm_" ||
        containsSub title "logistics" || containsSub title "material"
        then ["logistics"] else [])
  if categories.isEmpty then ["all"] else categories

/-- `this.serviceCategories.get(id) || []`: the constructor fills the map in
catalog order keyed by `service.id`, so the last service with a given id wins;
a missing id yields the empty list. -/
def serviceCategoriesGet (svcs : List SService) (id : String) : List String :=
  match (svcs.filter (fun s => s.id == id)).getLast? with
  | some s => categorizeService s
  | none => []

/-! ## Stage 1: minimal discovery (`performMinimalSearch`,
`discoverServicesAndEntitiesMinimal`) -/

/-- One match produced by `performMinimalSearch`.  Scores are JS numbers from
{0.5, 0.85, 0.9, 0.95}; they are modelled exactly as hundredths. -/
inductive MinimalMatch where
  | service (score : Nat) (serviceId serviceName : String) (entityCount : Nat)
      (categories : List String) (entities : List String)
  | entity (score : Nat) (serviceId serviceName : String) (entityCount : Nat)
      (categories : List String) (entityName : String)
deriving Repr, DecidableEq

/-- Score of a match. -/
def MinimalMatch.score : MinimalMatch → Nat
  | .service sc _ _ _ _ _ => sc
  | .entity sc _ _ _ _ _ => sc

/-- `service.metadata?.entityTypes?.map(e => e.name) || []`. -/
def entityNamesOf (s : SService) : List String :=
  match s.metadata with
  | some m => m.entityTypes.map (fun e => e.name)
  | none => []

/-- Whether a service passes the category filter at the top of
`performMinimalSearch`. -/
def categoryPasses (svcs : List SService) (category : String)
    (s : SService) : Bool :=
  category == "all" || (serviceCategoriesGet svcs s.id).contains category

/-- The matches `performMinimalSearch` pushes for one service. -/
def serviceMatches (svcs : List SService) (query category : String)
    (service : SService) : List MinimalMatch :=
  if ¬ categoryPasses svcs category service then []
  else
    let idLower := lowerStr service.id
    let titleLower := lowerStr service.title
    let serviceScore : Nat :=
      if query ≠ "" then
        if containsSub idLower query then 90
        else if containsSub titleLower query then 85
        else 0
      else 0
    let svcPart :=
      if serviceScore > 0 ∨ query = "" then
        let entities := entityNamesOf service
        [MinimalMatch.service (if serviceScore = 0 then 50 else serviceScore)
          service.id service.title entities.length
          (serviceCategoriesGet svcs service.id) entities]
      else []
    let entPart :=
      match service.metadata with
      | some m =>
          if query ≠ "" then
            m.entityTypes.filterMap (fun e =>
              if containsSub (lowerStr e.name) query then
                some (MinimalMatch.entity 95 service.id service.title
                  m.entityTypes.length (serviceCategoriesGet svcs service.id)
                  e.name)
              else none)
          else []
      | none => []
    svcPart ++ entPart

/-- `performMinimalSearch(query, category)`: one pass over the catalog,
service-level then entity-level matches per service. -/
def performMinimalSearch (svcs : List SService) (query category : String) :
    List MinimalMatch :=
  svcs.flatMap (serviceMatches svcs query category)

/-- Arguments of the Level-1 tool (all optional at the wire). -/
structure DiscoverArgs where
  query : Option String
  category : Option String
  limit : Option Nat
deriving Repr, DecidableEq

/-- Result record assembled by `discoverServicesAndEntitiesMinimal`. -/
structure DiscoverResult where
  query : String
  category : String
  returnedAllServices : Bool
  totalFound : Nat
  showing : Nat
  matchList : List MinimalMatch
deriving Repr, DecidableEq

/-- The valid category strings. -/
def validCategories : List String :=
  ["business-partner", "sales", "finance", "procurement", "hr", "logistics",
   "all"]

/-- Insert into a sorted list, keeping elements already in place when the
comparator considers them not-after (stable insertion). -/
def insertLe {α : Type} (le : α → α → Bool) (x : α) : List α → List α
  | [] => [x]
  | y :: ys => if le x y then x :: y :: ys else y :: insertLe le x ys

/-- Stable insertion sort modelling `Array.prototype.sort(comparator)` (V8
sorts stably; no claim depends on the order itself). -/
def sortStable {α : Type} (le : α → α → Bool) : List α → List α
  | [] => []
  | x :: xs => insertLe le x (sortStable le xs)

theorem length_insertLe {α : Type} (le : α → α → Bool) (x : α) :
    ∀ l : List α, (insertLe le x l).length = l.length + 1
  | [] => rfl
  | y :: ys => by
      unfold insertLe
      by_cases h : le x y = true <;> simp [h, length_insertLe le x ys]

theorem length_sortStable {α : Type} (le : α → α → Bool) :
    ∀ l : List α, (sortStable le l).length = l.length
  | [] => rfl
  | x :: xs => by
      unfold sortStable
      rw [length_insertLe, length_sortStable le xs, List.length_cons]

/-- Sort used when a real query produced matches: descending score
(`(a, b) => b.score - a.score`). -/
def sortByScoreDesc (ms : List MinimalMatch) : List MinimalMatch :=
  sortStable (fun a b => b.score ≤ a.score) ms

/-- Sort used on the fallback/empty-query path: service matches ascending by
display name, everything else left in place (comparator returns 0).
`localeCompare` is modelled as code-point order; no claim depends on the
collation. -/
def sortByTitle (ms : List MinimalMatch) : List MinimalMatch :=
  sortStable (fun a b =>
    match a, b with
    | .service _ _ an _ _ _, .service _ _ bn _ _ _ => an ≤ bn
    | _, _ => true) ms

/-- `args.query?.toLowerCase() || ""`. -/
def normQuery (args : DiscoverArgs) : String := lowerStr (args.query.getD "")

/-- `args.category?.toLowerCase() || "all"` followed by the valid-category
coercion. -/
def normCategory (args : DiscoverArgs) : String :=
  let c := lowerStr (args.category.getD "")
  let requestedCategory := if c = "" then "all" else c
  if validCategories.contains requestedCategory then requestedCategory
  else "all"

/-- `args.limit || 20` (a supplied 0 is falsy and also becomes 20). -/
def normLimit (args : DiscoverArgs) : Nat :=
  match args.limit with
  | some n => if n = 0 then 20 else n
  | none => 20

/-- `discoverServicesAndEntitiesMinimal` (Level 1), up to the JSON/text
rendering: query and category normalisation, the empty-fallback re-run, the
sort, and the limit truncation. -/
def discoverServicesAndEntitiesMinimal (svcs : List SService)
    (args : DiscoverArgs) : DiscoverResult :=
  let query := normQuery args
  let category := normCategory args
  let limit := normLimit args
  let raw := performMinimalSearch svcs query category
  let (ms, returnedAllServices) :=
    if raw.isEmpty ∧ query ≠ "" then
      (performMinimalSearch svcs "" category, true)
    else (raw, false)
  let sorted :=
    if ¬ returnedAllServices ∧ query ≠ "" then sortByScoreDesc ms
    else sortByTitle ms
  let limited := sorted.take limit
  { query := if query = "" then "all" else query
    category := category
    returnedAllServices := returnedAllServices
    totalFound := sorted.length
    showing := limited.length
    matchList := limited }

/-! ## Stage 2: `getEntityMetadataFull` -/

/-- `service.metadata?.entityTypes?.find(e => e.name === entityName)`. -/
def entityLookup (service : SService) (entityName : String) :
    Option SEntityType :=
  match service.metadata with
  | some m => m.entityTypes.find? (fun e => e.name == entityName)
  | none => none

/-- One property descriptor of the Level-2 response (`isKey` is derived by
membership in the key list). -/
structure EntityMetaProperty where
  name : String
  type : String
  nullable : Bool
  maxLength : Option Nat
  isKey : Bool
deriving Repr, DecidableEq

/-- The Level-2 metadata record (service summary, entity summary, capability
flags, property descriptors). -/
structure EntityMeta where
  serviceId : String
  serviceName : String
  description : String
  odataVersion : String
  url : String
  entityName : String
  entitySet : String
  nspace : String
  keyProperties : List String
  propertyCount : Nat
  readable : Bool
  creatable : Bool
  updatable : Bool
  deletable : Bool
  properties : List EntityMetaProperty
deriving Repr, DecidableEq

/-- Outcome of `getEntityMetadataFull` (structured error results, never
thrown). -/
inductive MetadataResult where
  | ok (m : EntityMeta)
  | missingArgs
  | serviceNotFound (serviceId : String)
  | entityNotFound (entityName serviceId availableEntities : String)
deriving Repr, DecidableEq

/-- `getEntityMetadataFull` (Level 2). -/
def getEntityMetadataFull (svcs : List SService)
    (serviceId entityName : String) : MetadataResult :=
  if serviceId = "" ∨ entityName = "" then .missingArgs
  else
    match svcs.find? (fun s => s.id == serviceId) with
    | none => .serviceNotFound serviceId
    | some service =>
      match entityLookup service entityName with
      | none =>
        let joined := joinSep ", " (entityNamesOf service)
        let availableEntities := if joined = "" then "none" else joined
        .entityNotFound entityName serviceId availableEntities
      | some entityType =>
        .ok { serviceId := service.id
              serviceName := service.title
              description := service.description
              odataVersion := service.odataVersion
              url := service.url
              entityName := entityType.name
              entitySet := entityType.entitySet
              nspace := entityType.nspace
              keyProperties := entityType.keys
              propertyCount := entityType.properties.length
              readable := true
              creatable := entityType.creatable
              updatable := entityType.updatable
              deletable := entityType.deletable
              properties := entityType.properties.map (fun prop =>
                { name := prop.name
                  type := prop.type
                  nullable := prop.nullable
                  maxLength := prop.maxLength
                  isKey := entityType.keys.contains prop.name }) }

/-! ## Stage 3: key building and formatting -/

/-- The single-quote character as a string. -/
def aposStr : String := String.mk [apos]

/-- `strValue.replace(/#/g, "##")` with `#` the single quote: double every
embedded single quote. -/
def escapeQuotes (s : String) : String :=
  String.mk (s.data.flatMap (fun c => if c = apos then [apos, apos] else [c]))

/-- Validation failures of the Level-3 dispatcher (each corresponds to one
`throw new Error(...)` / structured error return in the source). -/
inductive DispatchError where
  | invalidOperation (operation : Option String)
  | serviceNotFound (serviceId : String)
  | entityNotFound (entityName serviceId : String)
  | capabilityDenied (entityName operation : String)
  | missingKeys (names : List String)
  | nullKey (name : String)
deriving Repr, DecidableEq

/-- Whether an error is in the missing-key family of the error taxonomy
(`Missing required key properties: ...` or `Key property ... cannot be
null`). -/
def DispatchError.isMissingKeyFamily : DispatchError → Bool
  | .missingKeys _ => true
  | .nullKey _ => true
  | _ => false

/-- `formatKeyValue(keyProperty, value)`: type-directed key-value
formatting. -/
def formatKeyValue (keyProperty : SProperty) (value : JVal) :
    Except DispatchError String :=
  if value = .jnull ∨ value = .undefVal then
    .error (.nullKey keyProperty.name)
  else
    let strValue := value.toJsString
    let type := lowerStr keyProperty.type
    if containsSub type "guid" || containsSub type "uuid" then
      .ok ("guid" ++ aposStr ++ strValue ++ aposStr)
    else if containsSub type "int" || containsSub type "decimal" ||
        containsSub type "double" || containsSub type "float" then
      .ok strValue
    else if containsSub type "datetime" || containsSub type "date" then
      .ok ("datetime" ++ aposStr ++ strValue ++ aposStr)
    else
      .ok (aposStr ++ escapeQuotes strValue ++ aposStr)

/-- Whether a JS value is null or undefined. -/
def JVal.isNullish : JVal → Bool
  | .jnull => true
  | .undefVal => true
  | _ => false

/-- Sequential fallible map, modelling `Array.prototype.map` over a callback
that can throw: the first exception aborts the whole map. -/
def mapExcept {α β ε : Type} (f : α → Except ε β) : List α → Except ε (List β)
  | [] => .ok []
  | x :: xs =>
    match f x with
    | .error e => .error e
    | .ok y => (mapExcept f xs).map (fun ys => y :: ys)

/-- The key properties in the order `buildKeyValue` collects them: the
entity's property list filtered by key-name membership (property-declaration
order, not key-list order). -/
def keyPropertiesOf (entityType : SEntityType) : List SProperty :=
  entityType.properties.filter (fun p => entityType.keys.contains p.name)

/-- The per-property callback of the composite branch of `buildKeyValue`:
format the value and prepend `name=`. -/
def keyPartFormatter (parameters : List (String × JVal))
    (prop : SProperty) : Except DispatchError String :=
  (formatKeyValue prop (getKey parameters prop.name)).map
    (fun formatted => prop.name ++ "=" ++ formatted)

/-- `buildKeyValue(entityType, parameters)`: missing-key check naming every
missing key property, then single-key or comma-joined composite
formatting. -/
def buildKeyValue (entityType : SEntityType)
    (parameters : List (String × JVal)) : Except DispatchError String :=
  let keyProperties := keyPropertiesOf entityType
  let missingKeys := keyProperties.filter (fun p => ¬ hasKey parameters p.name)
  if missingKeys ≠ [] then
    .error (.missingKeys (missingKeys.map (fun p => p.name)))
  else
    match keyProperties with
    | [keyProp] => formatKeyValue keyProp (getKey parameters keyProp.name)
    | props => (mapExcept (keyPartFormatter parameters) props).map
        (joinSep ",")

/-- `validateAndCleanData(entityType, data, operation)`: drop reserved
metadata fields, undefined values, unknown properties, and (on create) key
properties. -/
def validateAndCleanData (entityType : SEntityType)
    (data : List (String × JVal)) (operation : String) :
    List (String × JVal) :=
  let reserved := ["__metadata", "__deferred", "__key", "__uri"]
  data.filterMap (fun kv =>
    if reserved.contains kv.1 then none
    else if kv.2 = .undefVal then none
    else
      match entityType.properties.find? (fun p => p.name == kv.1) with
      | none => none
      | some _ =>
        if operation = "create" ∧ entityType.keys.contains kv.1 then none
        else some kv)

/-! ## Stage 3: dispatch -/

/-- Arguments of the Level-3 tool. -/
structure ExecuteArgs where
  serviceId : String
  entityName : String
  operation : Option String
  parameters : List (String × JVal)
  filterString : Option String
  selectString : Option String
  expandString : Option String
  orderbyString : Option String
  topNumber : Option Int
  skipNumber : Option Int
deriving Repr, DecidableEq

/-- The OData query-options object sent to the transport (absent fields are
omitted from the request). -/
structure QueryOptionsH where
  filter : Option String
  select : Option String
  expand : Option String
  orderby : Option String
  top : Option Int
  skip : Option Int
deriving Repr, DecidableEq

/-- The `queryOptions` object assembled inline by `executeEntityOperation`:
every field is added exactly when the corresponding argument is truthy (a JS
number 0 and an empty string are falsy). -/
def hierarchicalQueryOptions (args : ExecuteArgs) : QueryOptionsH :=
  { filter := match args.filterString with
      | some s => if s ≠ "" then some s else none
      | none => none
    select := match args.selectString with
      | some s => if s ≠ "" then some s else none
      | none => none
    expand := match args.expandString with
      | some s => if s ≠ "" then some s else none
      | none => none
    orderby := match args.orderbyString with
      | some s => if s ≠ "" then some s else none
      | none => none
    top := match args.topNumber with
      | some n => if n ≠ 0 then some n else none
      | none => none
    skip := match args.skipNumber with
      | some n => if n ≠ 0 then some n else none
      | none => none }

/-- One call to the transport collaborator (`SAPClient` CRUD surface).  The
dispatcher performs at most one of these per invocation; a validation error
produces none.  (`setUserToken` is a token-slot write on the client, not one
of the five transport operations.) -/
inductive TransportCall where
  | readEntitySet (servicePath entitySet : String)
      (queryOptions : QueryOptionsH)
  | readEntity (servicePath entitySet keyValue : String)
  | createEntity (servicePath entitySet : String)
      (data : List (String × JVal))
  | updateEntity (servicePath entitySet keyValue : String)
      (data : List (String × JVal))
  | deleteEntity (servicePath entitySet keyValue : String)
deriving Repr, DecidableEq

instance exceptDecEq {e a : Type} [DecidableEq e] [DecidableEq a] :
    DecidableEq (Except e a) := fun x y =>
  match x, y with
  | .error u, .error v =>
      if h : u = v then .isTrue (by rw [h]) else .isFalse (by simp [h])
  | .ok u, .ok v =>
      if h : u = v then .isTrue (by rw [h]) else .isFalse (by simp [h])
  | .error _, .ok _ => .isFalse (by simp)
  | .ok _, .error _ => .isFalse (by simp)

/-- The valid operation names. -/
def validOperations : List String :=
  ["read", "read-single", "create", "update", "delete"]

/-- The human-readable description built for a read dispatch. -/
def readDescription (args : ExecuteArgs) : String :=
  "Reading " ++ args.entityName ++ " records" ++
  (match args.filterString with
    | some f => if f ≠ "" then " with filter: " ++ f else ""
    | none => "") ++
  (match args.topNumber with
    | some n => if n ≠ 0 then " (top " ++ toString n ++ ")" else ""
    | none => "")

/-- `executeEntityOperation` (Level 3), up to the envelope rendering: the
result of a successful dispatch is the operation description plus the single
transport call the dispatcher makes; every validation failure is an error
produced before any transport call. -/
def executeEntityOperation (svcs : List SService) (args : ExecuteArgs) :
    Except DispatchError (String × TransportCall) :=
  let operation := args.operation.map lowerStr
  let valid : Bool := match operation with
    | some op => validOperations.contains op
    | none => false
  if ¬ valid then .error (.invalidOperation operation)
  else
    let op := operation.getD ""
    match svcs.find? (fun s => s.id == args.serviceId) with
    | none => .error (.serviceNotFound args.serviceId)
    | some service =>
      match entityLookup service args.entityName with
      | none => .error (.entityNotFound args.entityName args.serviceId)
      | some entityType =>
        let parameters := args.parameters
        let queryOptions := hierarchicalQueryOptions args
        if op = "read" then
          .ok (readDescription args,
            .readEntitySet service.url entityType.entitySet queryOptions)
        else if op = "read-single" then
          match buildKeyValue entityType parameters with
          | .error e => .error e
          | .ok keyValue =>
            .ok ("Reading single " ++ args.entityName ++ " with key: " ++
                keyValue,
              .readEntity service.url entityType.entitySet keyValue)
        else if op = "create" then
          if ¬ entityType.creatable then
            .error (.capabilityDenied args.entityName "create")
          else
            .ok ("Creating new " ++ args.entityName,
              .createEntity service.url entityType.entitySet
                (validateAndCleanData entityType parameters "create"))
        else if op = "update" then
          if ¬ entityType.updatable then
            .error (.capabilityDenied args.entityName "update")
          else
            match buildKeyValue entityType parameters with
            | .error e => .error e
            | .ok updateKeyValue =>
              let updateData :=
                parameters.filter (fun kv => ¬ entityType.keys.contains kv.1)
              .ok ("Updating " ++ args.entityName ++ " with key: " ++
                  updateKeyValue,
                .updateEntity service.url entityType.entitySet updateKeyValue
                  (validateAndCleanData entityType updateData "update"))
        else
          if ¬ entityType.deletable then
            .error (.capabilityDenied args.entityName "delete")
          else
            match buildKeyValue entityType parameters with
            | .error e => .error e
            | .ok deleteKeyValue =>
              .ok ("Deleting " ++ args.entityName ++ " with key: " ++
                  deleteKeyValue,
                .deleteEntity service.url entityType.entitySet deleteKeyValue)

/-! ## Transport wrappers (src/services/sap-client.ts): response shaping -/

/-- An HTTP response as the client wrappers see it. -/
structure HttpResponse where
  headers : List (String × String)
  data : JVal
deriving Repr, DecidableEq

/-- Group 1 of the first match of the location-header pattern: a parenthesized
run of non-close-paren characters ending the string. -/
def lastParenGroup : List Char → Option (List Char)
  | [] => none
  | c :: cs =>
      if c = '(' ∧ ¬ cs.contains ')' ∧ cs ≠ [] then some cs
      else lastParenGroup cs

/-- `locationHeader.match(...)`: extract the key between a final pair of
parentheses. -/
def locationKeyMatch (location : String) : Option String :=
  match location.data.getLast? with
  | some c =>
      if c = ')' then (lastParenGroup location.data.dropLast).map String.mk
      else none
  | none => none

/-- `createEntity` (sap-client): the returned payload is a copy of the
submitted data, possibly augmented with `__key` taken from the Location
header — not the raw response body. -/
def createEntityResult (data : JVal) (response : HttpResponse) :
    HttpResponse :=
  let createdEntity : List (String × JVal) :=
    match data with
    | .obj fields => fields
    | _ => []
  let withKey :=
    match response.headers.find? (fun kv => kv.1 == "location") with
    | some kv =>
      match locationKeyMatch kv.2 with
      | some g => createdEntity ++ [("__key", .str g)]
      | none => createdEntity
    | none => createdEntity
  { response with data := .obj withKey }

/-- `cleanUpdateData` (sap-client): drop reserved metadata fields and
undefined values. -/
def cleanUpdateData (data : JVal) : List (String × JVal) :=
  match data with
  | .obj fields =>
      fields.filterMap (fun kv =>
        if ["__metadata", "__deferred", "__key"].contains kv.1 then none
        else if kv.2 = .undefVal then none
        else some kv)
  | _ => []

/-- `updateEntity` (sap-client): the returned payload is a synthesized
confirmation object, not the raw response body. -/
def updateEntityResult (key : String) (data : JVal)
    (response : HttpResponse) : HttpResponse :=
  let cleanData := cleanUpdateData data
  { response with data := .obj [
      ("message", .str ("Entity updated successfully with key: " ++ key)),
      ("success", .boolean true),
      ("key", .str key),
      ("updatedFields", .arr (cleanData.map (fun kv => .str kv.1)))] }

/-- `deleteEntity` (sap-client): the transport returns no body; a synthesized
confirmation object is returned. -/
def deleteEntityResult (key : String) : HttpResponse :=
  { headers := [], data := .obj [
      ("message", .str ("Entity deleted successfully with key: " ++ key)),
      ("success", .boolean true),
      ("key", .str key)] }

/-- What each client wrapper hands back to the dispatcher, given the raw HTTP
response of the transport call. -/
def clientResponse (call : TransportCall) (response : HttpResponse) :
    HttpResponse :=
  match call with
  | .readEntitySet _ _ _ => response
  | .readEntity _ _ _ => response
  | .createEntity _ _ data => createEntityResult (.obj data) response
  | .updateEntity _ _ key data => updateEntityResult key (.obj data) response
  | .deleteEntity _ _ key => deleteEntityResult key

/-- The Level-3 success envelope content: the dispatcher renders
`SUCCESS: <description>` followed by `response.data`.  Composing the
dispatcher with a pure transport oracle yields the description and the
payload the caller sees. -/
def executeWithTransport (svcs : List SService) (args : ExecuteArgs)
    (transport : TransportCall → HttpResponse) :
    Except DispatchError (String × JVal) :=
  (executeEntityOperation svcs args).map
    (fun r => (r.1, (clientResponse r.2 (transport r.2)).data))

/-! ## Stage 1 lemmas -/

theorem serviceMatches_empty_query (svcs : List SService) (category : String)
    (s : SService) (h : categoryPasses svcs category s = true) :
    serviceMatches svcs "" category s =
      [MinimalMatch.service 50 s.id s.title (entityNamesOf s).length
        (serviceCategoriesGet svcs s.id) (entityNamesOf s)] := by
  unfold serviceMatches
  simp only [h, Bool.not_true, Bool.false_eq_true, if_false, ne_eq,
    not_true_eq_false, if_true]
  cases hm : s.metadata <;> simp

theorem performMinimalSearch_empty_query_ne_nil (svcs : List SService)
    (category : String) (s : SService) (hs : s ∈ svcs)
    (h : categoryPasses svcs category s = true) :
    performMinimalSearch svcs "" category ≠ [] := by
  intro hnil
  have hmem : MinimalMatch.service 50 s.id s.title (entityNamesOf s).length
      (serviceCategoriesGet svcs s.id) (entityNamesOf s) ∈
      performMinimalSearch svcs "" category := by
    unfold performMinimalSearch
    rw [List.mem_flatMap]
    exact ⟨s, hs, by rw [serviceMatches_empty_query svcs category s h]; simp⟩
  rw [hnil] at hmem
  cases hmem

theorem normLimit_pos (args : DiscoverArgs) : 0 < normLimit args := by
  unfold normLimit
  cases h : args.limit with
  | none => simp
  | some n => cases n <;> simp

/-! ## C1: Stage 1 fallback -/

/-- C1: whenever the non-empty (normalised) query yields zero raw matches,
Level-1 discovery silently re-runs the search with the empty query against the
same category, flags the result as returned-all-services, and the shown list
is the title-sorted, limit-truncated empty-query result; the shown list is
non-empty whenever some catalog service passes the category filter.  (The
claim promised non-emptiness for every non-empty catalog; the counterexample
shows the category filter is preserved by the fallback, so a category that no
service carries still yields an empty result.) -/
theorem discover_fallback_on_empty (svcs : List SService) (args : DiscoverArgs)
    (hq : normQuery args ≠ "")
    (hraw : performMinimalSearch svcs (normQuery args) (normCategory args)
      = []) :
    (discoverServicesAndEntitiesMinimal svcs args).returnedAllServices
      = true ∧
    (discoverServicesAndEntitiesMinimal svcs args).matchList =
      (sortByTitle (performMinimalSearch svcs "" (normCategory args))).take
        (normLimit args) ∧
    (discoverServicesAndEntitiesMinimal svcs args).totalFound =
      (performMinimalSearch svcs "" (normCategory args)).length ∧
    (∀ s ∈ svcs, categoryPasses svcs (normCategory args) s = true →
      (discoverServicesAndEntitiesMinimal svcs args).matchList ≠ []) := by
  have hres : discoverServicesAndEntitiesMinimal svcs args =
      { query := if normQuery args = "" then "all" else normQuery args
        category := normCategory args
        returnedAllServices := true
        totalFound :=
          (sortByTitle (performMinimalSearch svcs "" (normCategory args))).length
        showing :=
          ((sortByTitle (performMinimalSearch svcs ""
            (normCategory args))).take (normLimit args)).length
        matchList :=
          (sortByTitle (performMinimalSearch svcs ""
            (normCategory args))).take (normLimit args) } := by
    unfold discoverServicesAndEntitiesMinimal
    simp only [hraw, List.isEmpty_nil, hq, ne_eq, not_false_eq_true,
      and_self, if_true, true_and, Bool.not_true, false_and, if_false]
    simp
  refine ⟨by rw [hres], by rw [hres], ?_, ?_⟩
  · rw [hres]
    simp [sortByTitle, length_sortStable]
  · intro s hs hcat
    rw [hres]
    simp only [ne_eq, List.take_eq_nil_iff, not_or]
    constructor
    · exact Nat.pos_iff_ne_zero.mp (normLimit_pos args)
    · intro hnil
      have hlen := congrArg List.length hnil
      rw [sortByTitle, length_sortStable] at hlen
      exact performMinimalSearch_empty_query_ne_nil svcs (normCategory args)
        s hs hcat (List.length_eq_zero.mp hlen)

/-- Catalog for the C1 counterexample: a single service matching no category
keyword, hence categorized `[all]`, so it never passes the `hr` filter. -/
def c1Service : SService :=
  { id := "X", title := "T", description := "", url := "u",
    odataVersion := "2.0", metadata := some { entityTypes := [] } }

/-- Arguments for the C1 counterexample: a query with no matches, and the
recognized category `hr`. -/
def c1Args : DiscoverArgs :=
  { query := some "zzz", category := some "hr", limit := none }

/-- C1 counterexample: a non-empty catalog, a recognized category and a
non-matching query for which Stage 1 returns the empty match list (flagged as
returned-all-services), refuting the claim that the fallback result is
non-empty whenever the catalog is non-empty. -/
theorem c1_counterexample :
    [c1Service] ≠ [] ∧
    c1Args.category = some "hr" ∧
    validCategories.contains "hr" = true ∧
    (discoverServicesAndEntitiesMinimal [c1Service] c1Args).returnedAllServices
      = true ∧
    (discoverServicesAndEntitiesMinimal [c1Service] c1Args).matchList = [] := by
  decide

/-- Service for the C1 witness. -/
def c1wService : SService :=
  { id := "SALES_SRV", title := "Sales Orders", description := "", url := "u",
    odataVersion := "2.0", metadata := some { entityTypes := [] } }

/-- Arguments for the C1 witness. -/
def c1wArgs : DiscoverArgs :=
  { query := some "qq", category := none, limit := none }

theorem c1_discover_fallback_on_empty_witness :
    (discoverServicesAndEntitiesMinimal [c1wService] c1wArgs).returnedAllServices
      = true ∧
    (discoverServicesAndEntitiesMinimal [c1wService] c1wArgs).matchList ≠ [] := by
  have h := discover_fallback_on_empty [c1wService] c1wArgs (by decide)
    (by decide)
  exact ⟨h.1, h.2.2.2 c1wService (by decide) (by decide)⟩

/-! ## Character-level lemmas -/

theorem char_ofNat_toNat_eq (n : Nat) (h : Nat.isValidChar n) :
    (Char.ofNat n).toNat = n := by
  simp [Char.ofNat, Char.ofNatAux, Char.toNat, h, UInt32.toNat,
    BitVec.toNat_ofNatLt]

theorem char_toLower_idem (c : Char) : c.toLower.toLower = c.toLower := by
  unfold Char.toLower
  by_cases h : c.toNat ≥ 65 ∧ c.toNat ≤ 90
  · simp only [h, and_self, if_true]
    have hvalid : Nat.isValidChar (c.toNat + 32) := by left; omega
    have hval : (Char.ofNat (c.toNat + 32)).toNat = c.toNat + 32 :=
      char_ofNat_toNat_eq _ hvalid
    rw [hval, if_neg (by omega)]
  · simp [h]

theorem lowerStr_idem (s : String) : lowerStr (lowerStr s) = lowerStr s := by
  unfold lowerStr
  apply String.ext
  simp [List.map_map, Function.comp_def, char_toLower_idem]

/-! ## Shared concrete fixtures -/

/-- Integer-typed key property of the demo entity. -/
def itemIdProp : SProperty :=
  { name := "ID", type := "Edm.Int32", nullable := false, maxLength := none }

/-- String-typed data property of the demo entity. -/
def itemNameProp : SProperty :=
  { name := "Name", type := "Edm.String", nullable := true,
    maxLength := some 40 }

/-- Demo entity with all three capability flags off. -/
def itemEntity : SEntityType :=
  { name := "Item", entitySet := "Items", nspace := "NS",
    properties := [itemIdProp, itemNameProp], keys := ["ID"],
    creatable := false, updatable := false, deletable := false }

/-- Demo entity with all three capability flags on. -/
def orderEntity : SEntityType :=
  { name := "Order", entitySet := "Orders", nspace := "NS",
    properties := [{ name := "OrderId", type := "Edm.String",
                     nullable := false, maxLength := none },
                   { name := "Amount", type := "Edm.Decimal",
                     nullable := true, maxLength := none }],
    keys := ["OrderId"],
    creatable := true, updatable := true, deletable := true }

/-- Demo service holding both demo entities. -/
def demoService : SService :=
  { id := "SVC", title := "Demo", description := "", url := "/odata/",
    odataVersion := "v2",
    metadata := some { entityTypes := [itemEntity, orderEntity] } }

/-- Execute-args template (no operation, no options). -/
def baseArgs : ExecuteArgs :=
  { serviceId := "SVC", entityName := "Item", operation := none,
    parameters := [], filterString := none, selectString := none,
    expandString := none, orderbyString := none, topNumber := none,
    skipNumber := none }

/-- `readDescription` does not inspect the operation field. -/
theorem readDescription_operation (args : ExecuteArgs) (o : Option String) :
    readDescription { args with operation := o } = readDescription args := rfl

/-- `hierarchicalQueryOptions` does not inspect the operation field. -/
theorem hierarchicalQueryOptions_operation (args : ExecuteArgs)
    (o : Option String) :
    hierarchicalQueryOptions { args with operation := o } =
      hierarchicalQueryOptions args := rfl

/-! ## C10: case-insensitive operation validation -/

/-- C10: the operation name is lower-cased before validation, so any
capitalisation dispatches like its lower-cased form, and any operation whose
lower-casing is outside the valid set fails with InvalidOperation regardless
of the catalog — before any service or entity lookup (the error does not
depend on whether the service or entity exists). -/
theorem execute_operation_case_insensitive (svcs : List SService)
    (args : ExecuteArgs) :
    (∀ op, args.operation = some op →
        validOperations.contains (lowerStr op) = false →
        executeEntityOperation svcs args =
          .error (.invalidOperation (some (lowerStr op)))) ∧
    (args.operation = none →
        executeEntityOperation svcs args = .error (.invalidOperation none)) ∧
    (∀ op, executeEntityOperation svcs { args with operation := some op } =
        executeEntityOperation svcs
          { args with operation := some (lowerStr op) }) := by
  refine ⟨?_, ?_, ?_⟩
  · intro op hop hcontains
    have h' : ¬ lowerStr op ∈ validOperations := by simpa using hcontains
    unfold executeEntityOperation
    rw [hop]
    simp [h']
  · intro hop
    unfold executeEntityOperation
    rw [hop]
    simp
  · intro op
    unfold executeEntityOperation
    simp only [Option.map_some', lowerStr_idem, readDescription_operation,
      hierarchicalQueryOptions_operation]

theorem execute_operation_case_insensitive_witness :
    executeEntityOperation [demoService]
        { baseArgs with operation := some "FLY" } =
      .error (.invalidOperation (some (lowerStr "FLY"))) ∧
    executeEntityOperation [demoService]
        { baseArgs with operation := some "READ" } =
      executeEntityOperation [demoService]
        { baseArgs with operation := some (lowerStr "READ") } :=
  ⟨(execute_operation_case_insensitive [demoService]
      { baseArgs with operation := some "FLY" }).1 "FLY" rfl (by decide),
   (execute_operation_case_insensitive [demoService] baseArgs).2.2 "READ"⟩

/-! ## C6: capability enforcement before transport -/

/-- C6: for a resolved entity whose capability flag for the requested mutating
operation is off, dispatch fails with CapabilityDenied; the result is an
error, so the dispatcher produces no transport call and the transport
collaborator is never invoked. -/
theorem execute_capability_denied (svcs : List SService) (args : ExecuteArgs)
    (service : SService) (entityType : SEntityType)
    (hsvc : svcs.find? (fun s => s.id == args.serviceId) = some service)
    (hent : entityLookup service args.entityName = some entityType) :
    (args.operation.map lowerStr = some "create" →
      entityType.creatable = false →
      executeEntityOperation svcs args =
        .error (.capabilityDenied args.entityName "create")) ∧
    (args.operation.map lowerStr = some "update" →
      entityType.updatable = false →
      executeEntityOperation svcs args =
        .error (.capabilityDenied args.entityName "update")) ∧
    (args.operation.map lowerStr = some "delete" →
      entityType.deletable = false →
      executeEntityOperation svcs args =
        .error (.capabilityDenied args.entityName "delete")) := by
  refine ⟨?_, ?_, ?_⟩ <;> intro hop hcap <;>
    · unfold executeEntityOperation
      rw [hop]
      simp [hsvc, hent, hcap]
      decide

theorem execute_capability_denied_witness :
    executeEntityOperation [demoService]
        { baseArgs with operation := some "create" } =
      .error (.capabilityDenied "Item" "create") ∧
    executeEntityOperation [demoService]
        { baseArgs with operation := some "update" } =
      .error (.capabilityDenied "Item" "update") ∧
    executeEntityOperation [demoService]
        { baseArgs with operation := some "delete" } =
      .error (.capabilityDenied "Item" "delete") :=
  ⟨(execute_capability_denied [demoService]
      { baseArgs with operation := some "create" } demoService itemEntity
      (by decide) (by decide)).1 (by decide) (by decide),
   (execute_capability_denied [demoService]
      { baseArgs with operation := some "update" } demoService itemEntity
      (by decide) (by decide)).2.1 (by decide) (by decide),
   (execute_capability_denied [demoService]
      { baseArgs with operation := some "delete" } demoService itemEntity
      (by decide) (by decide)).2.2 (by decide) (by decide)⟩

/-! ## buildQueryOptions (src/tools/sap-tool-registry.ts) -/

/-- Raw (unknown-typed) arguments of the static `buildQueryOptions` helper. -/
structure QueryOptionsArgs where
  filter : JVal
  select : JVal
  expand : JVal
  orderby : JVal
  top : JVal
  skip : JVal
deriving Repr, DecidableEq

/-- The query-options record `buildQueryOptions` returns; values are kept as
the raw JS values the helper stores. -/
structure BuiltQueryOptions where
  filter : Option JVal
  select : Option JVal
  expand : Option JVal
  orderby : Option JVal
  top : Option JVal
  skip : Option JVal
deriving Repr, DecidableEq

/-- The string-option guard of `buildQueryOptions`: not null, not undefined,
not the empty string. -/
def qoStringOk (v : JVal) : Bool :=
  v ≠ JVal.jnull ∧ v ≠ JVal.undefVal ∧ v ≠ JVal.str ""

/-- `SAPToolRegistry.buildQueryOptions`: string options are included when
non-null, non-undefined and non-empty; `$top` when a number greater than 0;
`$skip` when a number at least 0. -/
def buildQueryOptions (args : QueryOptionsArgs) : BuiltQueryOptions :=
  { filter := if qoStringOk args.filter then some args.filter else none
    select := if qoStringOk args.select then some args.select else none
    expand := if qoStringOk args.expand then some args.expand else none
    orderby := if qoStringOk args.orderby then some args.orderby else none
    top := match args.top with
      | .num n => if n > 0 then some (.num n) else none
      | _ => none
    skip := match args.skip with
      | .num n => if n ≥ 0 then some (.num n) else none
      | _ => none }

/-! ## C3: query-option inclusion -/

/-- C3 (amended): in the standalone `buildQueryOptions` helper every string
option is included exactly when present and non-empty, `$top` exactly when a
positive number and `$skip` exactly when a non-negative number; in the
hierarchical dispatcher (the Level-3 read path, which builds its options
inline by truthiness) the string options behave the same way, but `$top` and
`$skip` are included exactly when the supplied number is non-zero — a skip of
0 is dropped and negative values are passed through; and a successful read
dispatch sends exactly the inline-built options. -/
theorem query_options_inclusion (qargs : QueryOptionsArgs)
    (svcs : List SService) (args : ExecuteArgs) (service : SService)
    (entityType : SEntityType) :
    ((∀ v, (buildQueryOptions qargs).filter = some v ↔
        (qargs.filter = v ∧ qoStringOk v = true)) ∧
     (∀ v, (buildQueryOptions qargs).select = some v ↔
        (qargs.select = v ∧ qoStringOk v = true)) ∧
     (∀ v, (buildQueryOptions qargs).expand = some v ↔
        (qargs.expand = v ∧ qoStringOk v = true)) ∧
     (∀ v, (buildQueryOptions qargs).orderby = some v ↔
        (qargs.orderby = v ∧ qoStringOk v = true)) ∧
     (∀ n, (buildQueryOptions qargs).top = some (.num n) ↔
        (qargs.top = .num n ∧ n > 0)) ∧
     (∀ n, (buildQueryOptions qargs).skip = some (.num n) ↔
        (qargs.skip = .num n ∧ n ≥ 0))) ∧
    ((∀ f, (hierarchicalQueryOptions args).filter = some f ↔
        (args.filterString = some f ∧ f ≠ "")) ∧
     (∀ f, (hierarchicalQueryOptions args).select = some f ↔
        (args.selectString = some f ∧ f ≠ "")) ∧
     (∀ f, (hierarchicalQueryOptions args).expand = some f ↔
        (args.expandString = some f ∧ f ≠ "")) ∧
     (∀ f, (hierarchicalQueryOptions args).orderby = some f ↔
        (args.orderbyString = some f ∧ f ≠ "")) ∧
     (∀ n, (hierarchicalQueryOptions args).top = some n ↔
        (args.topNumber = some n ∧ n ≠ 0)) ∧
     (∀ n, (hierarchicalQueryOptions args).skip = some n ↔
        (args.skipNumber = some n ∧ n ≠ 0))) ∧
    (args.operation.map lowerStr = some "read" →
      svcs.find? (fun s => s.id == args.serviceId) = some service →
      entityLookup service args.entityName = some entityType →
      executeEntityOperation svcs args =
        .ok (readDescription args,
          .readEntitySet service.url entityType.entitySet
            (hierarchicalQueryOptions args))) := by
  refine ⟨⟨?_, ?_, ?_, ?_, ?_, ?_⟩, ⟨?_, ?_, ?_, ?_, ?_, ?_⟩, ?_⟩
  · intro v
    unfold buildQueryOptions
    by_cases h : qoStringOk qargs.filter = true <;>
      simp [h] <;> rintro rfl <;> simp_all
  · intro v
    unfold buildQueryOptions
    by_cases h : qoStringOk qargs.select = true <;>
      simp [h] <;> rintro rfl <;> simp_all
  · intro v
    unfold buildQueryOptions
    by_cases h : qoStringOk qargs.expand = true <;>
      simp [h] <;> rintro rfl <;> simp_all
  · intro v
    unfold buildQueryOptions
    by_cases h : qoStringOk qargs.orderby = true <;>
      simp [h] <;> rintro rfl <;> simp_all
  · intro n
    unfold buildQueryOptions
    cases h : qargs.top <;> simp_all
    omega
  · intro n
    unfold buildQueryOptions
    cases h : qargs.skip <;> simp_all
    omega
  · intro f
    unfold hierarchicalQueryOptions
    cases h : args.filterString <;> simp_all
    aesop
  · intro f
    unfold hierarchicalQueryOptions
    cases h : args.selectString <;> simp_all
    aesop
  · intro f
    unfold hierarchicalQueryOptions
    cases h : args.expandString <;> simp_all
    aesop
  · intro f
    unfold hierarchicalQueryOptions
    cases h : args.orderbyString <;> simp_all
    aesop
  · intro n
    unfold hierarchicalQueryOptions
    cases h : args.topNumber <;> simp_all
    aesop
  · intro n
    unfold hierarchicalQueryOptions
    cases h : args.skipNumber <;> simp_all
    aesop
  · intro hop hsvc hent
    unfold executeEntityOperation
    rw [hop]
    simp [hsvc, hent]
    decide

/-- Query-option args for the C3 witness. -/
def c3wQArgs : QueryOptionsArgs :=
  { filter := .str "A eq 1", select := .undefVal, expand := .jnull,
    orderby := .str "", top := .num 3, skip := .num 0 }

/-- Execute args for the C3 witness: a read with a zero skip. -/
def c3wArgs : ExecuteArgs :=
  { baseArgs with operation := some "read", skipNumber := some 0 }

theorem query_options_inclusion_witness :
    (buildQueryOptions c3wQArgs).filter = some (.str "A eq 1") ∧
    (buildQueryOptions c3wQArgs).top = some (.num 3) ∧
    (buildQueryOptions c3wQArgs).skip = some (.num 0) ∧
    (hierarchicalQueryOptions c3wArgs).skip = none ∧
    executeEntityOperation [demoService] c3wArgs =
      .ok (readDescription c3wArgs,
        .readEntitySet "/odata/" "Items"
          (hierarchicalQueryOptions c3wArgs)) := by
  have h := query_options_inclusion c3wQArgs [demoService] c3wArgs
    demoService itemEntity
  refine ⟨?_, ?_, ?_, ?_, ?_⟩
  · exact (h.1.1 (.str "A eq 1")).mpr (by decide)
  · exact (h.1.2.2.2.2.1 3).mpr (by decide)
  · exact (h.1.2.2.2.2.2 0).mpr (by decide)
  · decide
  · exact h.2.2 (by decide) (by decide) (by decide)

/-- Args for the C3 counterexample: a read with skip 0 and a negative top. -/
def c3Args : ExecuteArgs :=
  { baseArgs with
      operation := some "read"
      skipNumber := some 0
      topNumber := some (-5) }

/-- C3 counterexample: on a read dispatch the hierarchical dispatcher drops a
supplied skip of 0 (the claim says a non-negative skip is always sent) and
passes a negative top through (the claim says top is sent only when
positive). -/
theorem c3_counterexample :
    c3Args.skipNumber = some 0 ∧
    c3Args.topNumber = some (-5) ∧
    executeEntityOperation [demoService] c3Args =
      .ok (readDescription c3Args,
        .readEntitySet "/odata/" "Items"
          { filter := none, select := none, expand := none, orderby := none,
            top := some (-5), skip := none }) := by
  decide

/-! ## C9: null-metadata services degrade to zero entities -/

/-- C9: a service whose metadata slot is null is treated as having zero
entities: Stage 1 (empty query) still lists it, with entity count 0 and an
empty entity list, and Stage 2 returns the structured entity-not-found result
listing the available entities as `none` for any requested entity name. -/
theorem null_metadata_graceful (svcs : List SService) (category : String)
    (s : SService) (entityName : String) (hs : s ∈ svcs)
    (hm : s.metadata = none)
    (hcat : categoryPasses svcs category s = true)
    (hid : s.id ≠ "") (hn : entityName ≠ "")
    (hfind : svcs.find? (fun x => x.id == s.id) = some s) :
    MinimalMatch.service 50 s.id s.title 0 (serviceCategoriesGet svcs s.id) []
      ∈ performMinimalSearch svcs "" category ∧
    getEntityMetadataFull svcs s.id entityName =
      .entityNotFound entityName s.id "none" := by
  constructor
  · have hnames : entityNamesOf s = [] := by
      unfold entityNamesOf
      rw [hm]
    unfold performMinimalSearch
    rw [List.mem_flatMap]
    refine ⟨s, hs, ?_⟩
    rw [serviceMatches_empty_query svcs category s hcat, hnames]
    simp
  · have hnames : entityNamesOf s = [] := by
      unfold entityNamesOf
      rw [hm]
    unfold getEntityMetadataFull
    rw [if_neg (by simp [hid, hn]), hfind]
    simp [entityLookup, hm, hnames, joinSep]

/-- Service with a null metadata slot for the C9 witness. -/
def nullMetaService : SService :=
  { id := "NOMETA", title := "No Metadata", description := "", url := "/n/",
    odataVersion := "v2", metadata := none }

theorem null_metadata_graceful_witness :
    MinimalMatch.service 50 "NOMETA" "No Metadata" 0
        (serviceCategoriesGet [nullMetaService] "NOMETA") []
      ∈ performMinimalSearch [nullMetaService] "" "all" ∧
    getEntityMetadataFull [nullMetaService] "NOMETA" "Anything" =
      .entityNotFound "Anything" "NOMETA" "none" :=
  null_metadata_graceful [nullMetaService] "all" nullMetaService "Anything"
    (by decide) rfl (by decide) (by decide) (by decide) (by decide)

/-! ## Key-building lemmas -/

theorem JVal.isNullish_iff (v : JVal) :
    v.isNullish = true ↔ (v = .jnull ∨ v = .undefVal) := by
  cases v <;> simp [JVal.isNullish]

theorem formatKeyValue_nullish (p : SProperty) (v : JVal)
    (h : v.isNullish = true) :
    formatKeyValue p v = .error (.nullKey p.name) := by
  unfold formatKeyValue
  rw [if_pos ((JVal.isNullish_iff v).mp h)]

/-- Formatting per the specification wording: GUID types wrap in
`guid quotes`, the numeric family is unquoted, the date/time family wraps in
`datetime quotes`, everything else is quoted with embedded single quotes
doubled. -/
def specFormatKeyValue (p : SProperty) (v : JVal) : String :=
  let t := lowerStr p.type
  let sv := v.toJsString
  if containsSub t "guid" || containsSub t "uuid" then
    "guid" ++ aposStr ++ sv ++ aposStr
  else if containsSub t "int" || containsSub t "decimal" ||
      containsSub t "double" || containsSub t "float" then sv
  else if containsSub t "datetime" || containsSub t "date" then
    "datetime" ++ aposStr ++ sv ++ aposStr
  else aposStr ++ escapeQuotes sv ++ aposStr

/-- The key expression per the amended specification wording: a single key
emits the formatted value alone; a composite key emits name=value pairs for
the key properties in property-declaration order, joined by commas. -/
def specKeyExpression (et : SEntityType)
    (params : List (String × JVal)) : String :=
  match keyPropertiesOf et with
  | [p] => specFormatKeyValue p (getKey params p.name)
  | props =>
    joinSep "," (props.map (fun p =>
      p.name ++ "=" ++ specFormatKeyValue p (getKey params p.name)))

theorem formatKeyValue_eq_spec (p : SProperty) (v : JVal)
    (h : v.isNullish = false) :
    formatKeyValue p v = .ok (specFormatKeyValue p v) := by
  have h' : ¬ (v = JVal.jnull ∨ v = JVal.undefVal) := by
    intro hc
    rw [← JVal.isNullish_iff] at hc
    rw [h] at hc
    cases hc
  unfold formatKeyValue specFormatKeyValue
  rw [if_neg h']
  dsimp only
  split_ifs <;> rfl

theorem mapExcept_cons_error {α β ε : Type} {f : α → Except ε β} {x : α}
    {xs : List α} {e : ε} (h : f x = .error e) :
    mapExcept f (x :: xs) = .error e := by
  simp only [mapExcept]
  rw [h]

theorem mapExcept_cons_ok {α β ε : Type} {f : α → Except ε β} {x : α}
    {xs : List α} {y : β} (h : f x = .ok y) :
    mapExcept f (x :: xs) = (mapExcept f xs).map (fun ys => y :: ys) := by
  simp only [mapExcept]
  rw [h]

theorem mapExcept_ok {α β ε : Type} (f : α → Except ε β) (g : α → β) :
    ∀ l : List α, (∀ x ∈ l, f x = .ok (g x)) →
      mapExcept f l = .ok (l.map g)
  | [], _ => rfl
  | x :: xs, h => by
      unfold mapExcept
      rw [h x (by simp), mapExcept_ok f g xs (fun y hy => h y (by simp [hy]))]
      rfl

/-- If the first nullish-valued key property of `props` is `p`, the composite
part builder fails with the null-key error for `p`. -/
theorem keyParts_error (params : List (String × JVal)) :
    ∀ (props : List SProperty) (p : SProperty),
      props.find? (fun q => (getKey params q.name).isNullish) = some p →
      mapExcept (keyPartFormatter params) props =
        .error (.nullKey p.name)
  | [], p, h => by simp at h
  | q :: rest, p, h => by
      by_cases hq : (getKey params q.name).isNullish = true
      · rw [List.find?_cons, hq] at h
        simp at h
        subst h
        exact mapExcept_cons_error (show keyPartFormatter params q = _ from by
          unfold keyPartFormatter
          rw [formatKeyValue_nullish q _ hq]
          rfl)
      · have hq' : (getKey params q.name).isNullish = false := by
          simpa using hq
        rw [List.find?_cons, hq'] at h
        rw [mapExcept_cons_ok (show keyPartFormatter params q =
            .ok (q.name ++ "=" ++ specFormatKeyValue q (getKey params q.name))
            from by
          unfold keyPartFormatter
          rw [formatKeyValue_eq_spec q _ hq']
          rfl)]
        rw [keyParts_error params rest p h]
        rfl

/-- The filter of missing key properties. -/
def missingKeyProps (et : SEntityType)
    (params : List (String × JVal)) : List SProperty :=
  (keyPropertiesOf et).filter (fun p => ¬ hasKey params p.name)

theorem buildKeyValue_missing (et : SEntityType)
    (params : List (String × JVal)) (h : missingKeyProps et params ≠ []) :
    buildKeyValue et params =
      .error (.missingKeys ((missingKeyProps et params).map
        (fun p => p.name))) := by
  unfold buildKeyValue
  unfold missingKeyProps at h ⊢
  simp only [ne_eq, h, not_false_eq_true, if_true]

theorem buildKeyValue_null (et : SEntityType)
    (params : List (String × JVal)) (p : SProperty)
    (hmiss : missingKeyProps et params = [])
    (hfind : (keyPropertiesOf et).find?
      (fun q => (getKey params q.name).isNullish) = some p) :
    buildKeyValue et params = .error (.nullKey p.name) := by
  unfold buildKeyValue
  unfold missingKeyProps at hmiss
  simp only [hmiss, ne_eq, not_true_eq_false, if_false]
  cases hk : keyPropertiesOf et with
  | nil => rw [hk] at hfind; simp at hfind
  | cons q rest =>
    cases hrest : rest with
    | nil =>
      rw [hk, hrest] at hfind
      by_cases hq : (getKey params q.name).isNullish = true
      · rw [List.find?_cons, hq] at hfind
        simp at hfind
        subst hfind
        exact formatKeyValue_nullish q _ hq
      · have hq' : (getKey params q.name).isNullish = false := by
          simpa using hq
        rw [List.find?_cons, hq'] at hfind
        simp at hfind
    | cons r rest2 =>
      rw [hk, hrest] at hfind
      show (mapExcept (keyPartFormatter params) (q :: r :: rest2)).map
        (joinSep ",") = _
      rw [keyParts_error params (q :: r :: rest2) p hfind]
      rfl

theorem buildKeyValue_ok (et : SEntityType) (params : List (String × JVal))
    (hmiss : missingKeyProps et params = [])
    (hnn : ∀ p ∈ keyPropertiesOf et,
      (getKey params p.name).isNullish = false) :
    buildKeyValue et params = .ok (specKeyExpression et params) := by
  unfold buildKeyValue specKeyExpression
  unfold missingKeyProps at hmiss
  simp only [hmiss, ne_eq, not_true_eq_false, if_false]
  cases hk : keyPropertiesOf et with
  | nil => rfl
  | cons q rest =>
    cases hrest : rest with
    | nil =>
      exact formatKeyValue_eq_spec q _ (hnn q (by rw [hk, hrest]; simp))
    | cons r rest2 =>
      show (mapExcept (keyPartFormatter params) (q :: r :: rest2)).map
        (joinSep ",") = _
      rw [mapExcept_ok (keyPartFormatter params) (fun p =>
          p.name ++ "=" ++ specFormatKeyValue p (getKey params p.name))
        (q :: r :: rest2)
        (fun x hx => by
          unfold keyPartFormatter
          rw [formatKeyValue_eq_spec x _ (hnn x (by rw [hk, hrest]; exact hx))]
          rfl)]
      rfl

/-! ## C4: key-expression construction and type-directed formatting -/

/-- C4 (amended): with every declared key property supplied and non-null, the
built key expression follows the specification shape — a single key emits the
type-formatted value alone, a composite key emits name=value pairs joined by
commas — except that the pairs follow the property-declaration order of the
entity, not the key-list order; and the type-directed formatter wraps GUID
values, leaves the numeric family unquoted, wraps the date/time family, and
quotes everything else with embedded single quotes doubled. -/
theorem key_expression_follows_spec (et : SEntityType)
    (params : List (String × JVal))
    (hmiss : missingKeyProps et params = [])
    (hnn : ∀ p ∈ keyPropertiesOf et,
      (getKey params p.name).isNullish = false) :
    buildKeyValue et params = .ok (specKeyExpression et params) ∧
    (∀ (p : SProperty) (v : JVal), v.isNullish = false →
      formatKeyValue p v = .ok (specFormatKeyValue p v)) :=
  ⟨buildKeyValue_ok et params hmiss hnn,
   fun p v h => formatKeyValue_eq_spec p v h⟩

/-- Composite-key entity whose key-list order disagrees with the
property-declaration order. -/
def pairEntity : SEntityType :=
  { name := "Pair", entitySet := "Pairs", nspace := "NS",
    properties := [{ name := "A", type := "Edm.Int32", nullable := false,
                     maxLength := none },
                   { name := "B", type := "Edm.Int32", nullable := false,
                     maxLength := none }],
    keys := ["B", "A"],
    creatable := true, updatable := true, deletable := true }

/-- C4 counterexample: with keys declared in the order B, A but properties
declared in the order A, B, the built composite key expression lists A first
— property-declaration order, refuting the claim that the pairs follow the
declared key order. -/
theorem c4_counterexample :
    pairEntity.keys = ["B", "A"] ∧
    buildKeyValue pairEntity [("A", .num 1), ("B", .num 2)] =
      .ok "A=1,B=2" ∧
    "A=1,B=2" ≠ "B=2,A=1" := by
  decide

/-- The string O(single quote)Brien, built without a literal quote. -/
def obrien : String := "O" ++ aposStr ++ "Brien"

/-- GUID-typed key property for the C4 witness. -/
def guidProp : SProperty :=
  { name := "Guid", type := "Edm.Guid", nullable := false,
    maxLength := none }

theorem key_expression_follows_spec_witness :
    buildKeyValue orderEntity [("OrderId", .str obrien)] =
      .ok (specKeyExpression orderEntity [("OrderId", .str obrien)]) ∧
    specKeyExpression orderEntity [("OrderId", .str obrien)] =
      aposStr ++ "O" ++ aposStr ++ aposStr ++ "Brien" ++ aposStr ∧
    formatKeyValue guidProp (.str "abc-123") =
      .ok ("guid" ++ aposStr ++ "abc-123" ++ aposStr) ∧
    formatKeyValue itemIdProp (.num 42) = .ok "42" := by
  have h := key_expression_follows_spec orderEntity
    [("OrderId", .str obrien)] (by decide) (by decide)
  refine ⟨h.1, by decide, ?_, ?_⟩
  · exact (h.2 guidProp (.str "abc-123") (by decide)).trans (by decide)
  · exact (h.2 itemIdProp (.num 42) (by decide)).trans (by decide)

/-! ## C5: missing and null key handling -/

/-- C5 (amended): for read-single always, and for update and delete when the
entity's capability flag for that operation is on, a dispatch with any
declared key property absent fails with the missing-key error naming every
missing key property; a present-but-null (or undefined) key value fails with
the null-key error for the first such property; both are in the missing-key
error family and either way the dispatcher returns an error, so no transport
call is made.  (When the capability flag for update or delete is off, the
capability check fires first and the failure is CapabilityDenied instead —
the counterexample below.) -/
theorem missing_key_handling :
    (∀ (et : SEntityType) (params : List (String × JVal)),
      missingKeyProps et params ≠ [] →
      buildKeyValue et params = .error (.missingKeys
        ((missingKeyProps et params).map (fun p => p.name)))) ∧
    (∀ (et : SEntityType) (params : List (String × JVal)) (p : SProperty),
      missingKeyProps et params = [] →
      (keyPropertiesOf et).find? (fun q => (getKey params q.name).isNullish)
        = some p →
      buildKeyValue et params = .error (.nullKey p.name)) ∧
    (∀ names, (DispatchError.missingKeys names).isMissingKeyFamily = true) ∧
    (∀ n, (DispatchError.nullKey n).isMissingKeyFamily = true) ∧
    (∀ (svcs : List SService) (args : ExecuteArgs) (service : SService)
        (et : SEntityType) (e : DispatchError),
      svcs.find? (fun s => s.id == args.serviceId) = some service →
      entityLookup service args.entityName = some et →
      buildKeyValue et args.parameters = .error e →
      ((args.operation.map lowerStr = some "read-single" →
        executeEntityOperation svcs args = .error e) ∧
       (args.operation.map lowerStr = some "update" → et.updatable = true →
        executeEntityOperation svcs args = .error e) ∧
       (args.operation.map lowerStr = some "delete" → et.deletable = true →
        executeEntityOperation svcs args = .error e))) := by
  refine ⟨buildKeyValue_missing, buildKeyValue_null, fun _ => rfl, fun _ => rfl,
    ?_⟩
  intro svcs args service et e hsvc hent hbk
  refine ⟨?_, ?_, ?_⟩
  · intro hop
    have hmem : ("read-single" : String) ∈ validOperations := by decide
    unfold executeEntityOperation
    rw [hop]
    simp [hmem, hsvc, hent, hbk]
  · intro hop hcap
    have hmem : ("update" : String) ∈ validOperations := by decide
    unfold executeEntityOperation
    rw [hop]
    simp [hmem, hsvc, hent, hbk, hcap]
  · intro hop hcap
    have hmem : ("delete" : String) ∈ validOperations := by decide
    unfold executeEntityOperation
    rw [hop]
    simp [hmem, hsvc, hent, hbk, hcap]

/-- Execute args for the C5 witness: read-single with no parameters. -/
def c5wArgs : ExecuteArgs :=
  { baseArgs with operation := some "read-single" }

theorem missing_key_handling_witness :
    buildKeyValue itemEntity [] = .error (.missingKeys ["ID"]) ∧
    buildKeyValue orderEntity [("OrderId", .jnull)] =
      .error (.nullKey "OrderId") ∧
    executeEntityOperation [demoService] c5wArgs =
      .error (.missingKeys ["ID"]) := by
  have h := missing_key_handling
  refine ⟨?_, ?_, ?_⟩
  · exact (h.1 itemEntity [] (by decide)).trans (by decide)
  · exact (h.2.1 orderEntity [("OrderId", .jnull)]
      { name := "OrderId", type := "Edm.String", nullable := false,
        maxLength := none } (by decide) (by decide))
  · exact (h.2.2.2.2 [demoService] c5wArgs demoService itemEntity
      (.missingKeys ["ID"]) (by decide) (by decide) (by decide)).1 (by decide)

/-- C5 counterexample: an update dispatch on a non-updatable entity with the
key absent fails with CapabilityDenied, not with a missing-key error — the
capability check precedes key building for update and delete. -/
theorem c5_counterexample :
    itemEntity.updatable = false ∧
    hasKey ([] : List (String × JVal)) "ID" = false ∧
    executeEntityOperation [demoService]
        { baseArgs with operation := some "update" } =
      .error (.capabilityDenied "Item" "update") ∧
    (DispatchError.capabilityDenied "Item" "update").isMissingKeyFamily
      = false := by
  decide

/-! ## C7: result envelopes and payload shaping -/

/-- C7 (amended): a successful dispatch yields an envelope carrying the
operation description together with the payload shaped by the client wrapper
for that operation: read and read-single pass the raw transport response
through unchanged; create substitutes a copy of the submitted data (augmented
with a key extracted from the Location header when one matches); update and
delete substitute synthesized confirmation payloads — so delete is not the
only operation whose payload is synthesized, refuting the claim that read,
read-single, create and update all carry the raw response body. -/
theorem result_envelope_payloads (svcs : List SService) (args : ExecuteArgs)
    (transport : TransportCall → HttpResponse) (desc : String)
    (call : TransportCall) :
    (∀ u es q resp, clientResponse (.readEntitySet u es q) resp = resp) ∧
    (∀ u es k resp, clientResponse (.readEntity u es k) resp = resp) ∧
    (∀ u es data resp,
      resp.headers.find? (fun kv => kv.1 == "location") = none →
      (clientResponse (.createEntity u es data) resp).data = .obj data) ∧
    (∀ u es k data resp,
      (clientResponse (.updateEntity u es k data) resp).data =
        .obj [("message",
                .str ("Entity updated successfully with key: " ++ k)),
              ("success", .boolean true),
              ("key", .str k),
              ("updatedFields",
                .arr ((cleanUpdateData (.obj data)).map
                  (fun kv => .str kv.1)))]) ∧
    (∀ u es k resp,
      (clientResponse (.deleteEntity u es k) resp).data =
        .obj [("message",
                .str ("Entity deleted successfully with key: " ++ k)),
              ("success", .boolean true),
              ("key", .str k)]) ∧
    (executeEntityOperation svcs args = .ok (desc, call) →
      executeWithTransport svcs args transport =
        .ok (desc, (clientResponse call (transport call)).data)) := by
  refine ⟨fun u es q resp => rfl, fun u es k resp => rfl, ?_,
    fun u es k data resp => rfl, fun u es k resp => rfl, ?_⟩
  · intro u es data resp hloc
    unfold clientResponse createEntityResult
    rw [hloc]
  · intro hexec
    unfold executeWithTransport
    rw [hexec]
    rfl

/-- Transport oracle that always answers with a distinctive raw body. -/
def rawTransport : TransportCall → HttpResponse :=
  fun _ => { headers := [], data := .str "RAW" }

/-- Execute args for the C7 counterexample: an update on the demo order. -/
def c7Args : ExecuteArgs :=
  { baseArgs with
      entityName := "Order"
      operation := some "update"
      parameters := [("OrderId", .str "O1"), ("Amount", .num 5)] }

/-- C7 counterexample: the transport returns body RAW for the update, yet the
envelope payload is the synthesized confirmation object, not RAW — update
substitutes a synthesized payload exactly like delete, contrary to the
claim. -/
theorem c7_counterexample :
    (rawTransport (.updateEntity "/odata/" "Orders"
        (aposStr ++ "O1" ++ aposStr) [("Amount", .num 5)])).data =
      .str "RAW" ∧
    executeWithTransport [demoService] c7Args rawTransport =
      .ok ("Updating Order with key: " ++ aposStr ++ "O1" ++ aposStr,
        .obj [("message",
                .str ("Entity updated successfully with key: " ++
                  aposStr ++ "O1" ++ aposStr)),
              ("success", .boolean true),
              ("key", .str (aposStr ++ "O1" ++ aposStr)),
              ("updatedFields", .arr [.str "Amount"])]) ∧
    (executeWithTransport [demoService] c7Args rawTransport).toOption.map
        Prod.snd ≠ some (.str "RAW") := by
  decide

/-- Execute args for the C7 witness: a plain read. -/
def c7wArgs : ExecuteArgs := { baseArgs with operation := some "read" }

theorem result_envelope_payloads_witness :
    clientResponse (.readEntitySet "/odata/" "Items"
        (hierarchicalQueryOptions c7wArgs))
        { headers := [], data := .str "RAW" } =
      { headers := [], data := .str "RAW" } ∧
    (clientResponse (.deleteEntity "/odata/" "Items" "7")
        { headers := [], data := .undefVal }).data =
      .obj [("message", .str ("Entity deleted successfully with key: 7")),
            ("success", .boolean true), ("key", .str "7")] ∧
    executeWithTransport [demoService] c7wArgs rawTransport =
      .ok (readDescription c7wArgs,
        (clientResponse
          (.readEntitySet "/odata/" "Items" (hierarchicalQueryOptions c7wArgs))
          (rawTransport (.readEntitySet "/odata/" "Items"
            (hierarchicalQueryOptions c7wArgs)))).data) := by
  have h := result_envelope_payloads [demoService] c7wArgs rawTransport
    (readDescription c7wArgs)
    (.readEntitySet "/odata/" "Items" (hierarchicalQueryOptions c7wArgs))
  exact ⟨h.1 "/odata/" "Items" (hierarchicalQueryOptions c7wArgs)
      { headers := [], data := .str "RAW" },
    by decide,
    h.2.2.2.2.2 (by decide)⟩

/-! ## C8: scoring and matching rules of Stage 1 -/

/-- The right-hand side of the Stage-1 match characterization for one
service. -/
def matchSpec (svcs : List SService) (query : String)
    (s : SService) (m : MinimalMatch) : Prop :=
  (query = "" ∧ m = .service 50 s.id s.title (entityNamesOf s).length
      (serviceCategoriesGet svcs s.id) (entityNamesOf s)) ∨
  (query ≠ "" ∧ containsSub (lowerStr s.id) query = true ∧
    m = .service 90 s.id s.title (entityNamesOf s).length
      (serviceCategoriesGet svcs s.id) (entityNamesOf s)) ∨
  (query ≠ "" ∧ containsSub (lowerStr s.id) query = false ∧
    containsSub (lowerStr s.title) query = true ∧
    m = .service 85 s.id s.title (entityNamesOf s).length
      (serviceCategoriesGet svcs s.id) (entityNamesOf s)) ∨
  (query ≠ "" ∧ ∃ md, s.metadata = some md ∧ ∃ e ∈ md.entityTypes,
    containsSub (lowerStr e.name) query = true ∧
    m = .entity 95 s.id s.title md.entityTypes.length
      (serviceCategoriesGet svcs s.id) e.name)

theorem mem_serviceMatches (svcs : List SService) (query category : String)
    (s : SService) (m : MinimalMatch) :
    m ∈ serviceMatches svcs query category s ↔
      (categoryPasses svcs category s = true ∧
        matchSpec svcs query s m) := by
  unfold serviceMatches matchSpec
  by_cases hcat : categoryPasses svcs category s = true
  · simp only [hcat, Bool.not_true, Bool.false_eq_true, if_false, true_and,
      ite_false]
    by_cases hq : query = ""
    · subst hq
      cases hmeta : s.metadata <;>
        simp [entityNamesOf, hmeta]
    · by_cases hid : containsSub (lowerStr s.id) query = true
      · cases hmeta : s.metadata with
        | none =>
          simp [hq, hid, entityNamesOf, hmeta, List.mem_filterMap]
        | some md =>
          simp [hq, hid, entityNamesOf, hmeta, List.mem_filterMap]
          aesop
      · by_cases htitle : containsSub (lowerStr s.title) query = true
        · cases hmeta : s.metadata with
          | none =>
            simp [hq, hid, htitle, entityNamesOf, hmeta, List.mem_filterMap]
          | some md =>
            simp [hq, hid, htitle, entityNamesOf, hmeta, List.mem_filterMap]
            aesop
        · cases hmeta : s.metadata with
          | none =>
            simp [hq, hid, htitle, entityNamesOf, hmeta, List.mem_filterMap]
          | some md =>
            simp [hq, hid, htitle, entityNamesOf, hmeta, List.mem_filterMap]
            aesop
  · have hcat' : categoryPasses svcs category s = false := by
      simpa using hcat
    simp [hcat']

/-- C8: the complete characterization of Stage-1 matches.  A match is in the
result exactly when its service passes the category filter and: with an empty
query, it is the service match with fixed score 0.5 carrying the full
entity-name list and the category set; with a non-empty query, it is the
service match with score 0.9 when the lower-cased id contains the query, else
0.85 when the lower-cased title contains it, or an independent entity match
with score 0.95 for an entity whose lower-cased name contains the query —
case-insensitive substring containment only. -/
theorem performMinimalSearch_characterization (svcs : List SService)
    (query category : String) (m : MinimalMatch) :
    m ∈ performMinimalSearch svcs query category ↔
      ∃ s ∈ svcs, categoryPasses svcs category s = true ∧
        matchSpec svcs query s m := by
  unfold performMinimalSearch
  rw [List.mem_flatMap]
  constructor
  · rintro ⟨s, hs, hm⟩
    exact ⟨s, hs, (mem_serviceMatches svcs query category s m).mp hm⟩
  · rintro ⟨s, hs, hcat, hspec⟩
    exact ⟨s, hs, (mem_serviceMatches svcs query category s m).mpr
      ⟨hcat, hspec⟩⟩

theorem performMinimalSearch_characterization_witness :
    MinimalMatch.service 90 "SVC" "Demo" 2
        (serviceCategoriesGet [demoService] "SVC") ["Item", "Order"]
      ∈ performMinimalSearch [demoService] "svc" "all" ∧
    MinimalMatch.entity 95 "SVC" "Demo" 2
        (serviceCategoriesGet [demoService] "SVC") "Order"
      ∈ performMinimalSearch [demoService] "order" "all" := by
  constructor
  · exact (performMinimalSearch_characterization [demoService] "svc" "all"
      _).mpr ⟨demoService, by decide, by decide,
        Or.inr (Or.inl (by refine ⟨by decide, by decide, ?_⟩; decide))⟩
  · exact (performMinimalSearch_characterization [demoService] "order" "all"
      _).mpr ⟨demoService, by decide, by decide,
        Or.inr (Or.inr (Or.inr ⟨by decide,
          { entityTypes := [itemEntity, orderEntity] }, by decide,
          orderEntity, by decide, by decide, by decide⟩))⟩

/-! ## Tool-name allocator (src/tools/sap-tool-registry.ts) -/

/-- JS `substring(0, n)` (clamped). -/
def substrTo (s : String) (n : Nat) : String := String.mk (s.data.take n)

/-- `abbr.replace(leading-org-pattern, empty)`: strip one organizational
prefix, first matching alternative in pattern order. -/
def stripOrgPre (s : String) : String :=
  if startsWithStr s "ZBP_" then String.mk (s.data.drop 4)
  else if startsWithStr s "ZC_" then String.mk (s.data.drop 3)
  else if startsWithStr s "ZI_" then String.mk (s.data.drop 3)
  else if startsWithStr s "YBP_" then String.mk (s.data.drop 4)
  else if startsWithStr s "YC_" then String.mk (s.data.drop 3)
  else if startsWithStr s "YI_" then String.mk (s.data.drop 3)
  else s

/-- Whether a character list is one or more decimal digits. -/
def allDigits (cs : List Char) : Bool :=
  cs ≠ [] && cs.all (fun c => c.isDigit)

/-- Whether a suffix matches the trailing organizational pattern
`(_SRV|_SRV_0001|_CDS|_SERVICE)` optionally followed by an underscore and
digits, anchored at the end. -/
def matchesTrailingOrg (t : List Char) : Bool :=
  ["_SRV", "_SRV_0001", "_CDS", "_SERVICE"].any (fun a =>
    t == a.data ||
    (a.data.isPrefixOf t &&
      match t.drop a.data.length with
      | c :: ds => c = '_' && allDigits ds
      | [] => false))

/-- `abbr.replace(trailing-org-pattern, empty)`: remove the leftmost suffix
matching the trailing pattern. -/
def stripOrgSuffixes (s : String) : String :=
  match (List.range (s.data.length + 1)).find?
      (fun k => matchesTrailingOrg (s.data.drop k)) with
  | some k => String.mk (s.data.take k)
  | none => s

/-- Split a character list at underscores (JS `split(underscore)`). -/
def splitUnderscore : List Char → List (List Char)
  | [] => [[]]
  | c :: cs =>
    let r := splitUnderscore cs
    if c = '_' then [] :: r
    else
      match r with
      | h :: t => (c :: h) :: t
      | [] => [[c]]

/-- `abbreviateServiceId`: strip organizational affixes, collapse multi-part
ids to first and last segment, hard-truncate to 12. -/
def abbreviateServiceId (serviceId : String) : String :=
  let abbr := stripOrgSuffixes (stripOrgPre serviceId)
  if abbr.length > 12 then
    let parts := (splitUnderscore abbr.data).filter (fun p => p.length > 0)
    let abbr2 : String :=
      match parts with
      | p0 :: p1 :: p2 :: rest =>
        String.mk p0 ++ "_" ++ String.mk (((p1 :: p2 :: rest).getLast?).getD [])
      | _ => abbr
    if abbr2.length > 12 then substrTo abbr2 12 else abbr2
  else abbr

/-- `abbreviateEntityName`: acronym-style compression when the name starts
upper-then-lower and has more than one capital, then hard-truncate to 12. -/
def abbreviateEntityName (entityName : String) : String :=
  let abbr :=
    match entityName.data with
    | c1 :: c2 :: _ =>
      if c1.isUpper && c2.isLower then
        let capitals := entityName.data.filter (fun c => c.isUpper)
        if capitals.length > 1 then String.mk capitals else entityName
      else entityName
    | _ => entityName
  if abbr.length > 12 then substrTo abbr 12 else abbr

/-- Hex character of a digit value below 16. -/
def hexChar (d : Nat) : Char :=
  Char.ofNat (if d < 10 then 48 + d else 87 + d)

/-- `n` hex characters drawn from a value, least significant first. -/
def hexDigits : Nat → Nat → List Char
  | 0, _ => []
  | n + 1, v => hexChar (v % 16) :: hexDigits n (v / 16)

/-- Models the external `createHash(sha256).digest(hex).substring(0, length)`
of `getShortHash`: a deterministic digest of exactly `length` hex characters.
The claims depend only on determinism and the fixed output length, not on the
SHA-256 bit function, which lives in the runtime library. -/
def getShortHash (input : String) (length : Nat) : String :=
  let h := input.data.foldl (fun acc c => acc * 131 + c.toNat + 1) 7
  String.mk (hexDigits length h)

/-- Decimal digit character. -/
def digitChar (d : Nat) : Char := Char.ofNat (48 + d)

/-- Decimal digits of `n`, most significant first (fuelled helper). -/
def decDigitsAux : Nat → Nat → List Char
  | 0, _ => []
  | fuel + 1, n =>
    if n < 10 then [digitChar n]
    else decDigitsAux fuel (n / 10) ++ [digitChar (n % 10)]

/-- Decimal digits of `n`, most significant first (the template
`${counter}`). -/
def decDigits (n : Nat) : List Char := decDigitsAux (n + 1) n

/-- The suffixed candidate for one collision-resolution round:
`candidate.substring(0, 64 - suffix.length) + suffix` with suffix
`-counter`. -/
def suffixName (candidate : String) (counter : Nat) : String :=
  let suffix := "-" ++ String.mk (decDigits counter)
  let maxBase := 64 - suffix.length
  substrTo candidate maxBase ++ suffix

/-- The collision loop (`while usedShortNames.has(finalName)`), fuelled; the
fuel `used.length + 1` is always sufficient (`collideLoop_total` below). -/
def collideLoop (used : List String) (candidate : String) :
    Nat → Nat → Option String
  | 0, _ => none
  | fuel + 1, counter =>
    if used.contains (suffixName candidate counter) then
      collideLoop used candidate fuel (counter + 1)
    else some (suffixName candidate counter)

/-- Mutable allocator state: the set of issued short names and the
short-to-long mapping table. -/
structure AllocState where
  usedShortNames : List String
  toolNameMapping : List (String × String)
deriving Repr, DecidableEq

/-- The fresh allocator state. -/
def AllocState.empty : AllocState :=
  { usedShortNames := [], toolNameMapping := [] }

/-- Mapping lookup (`toolNameMapping.get(k)`). -/
def AllocState.lookupMapping (st : AllocState) (k : String) : Option String :=
  (st.toolNameMapping.find? (fun kv => kv.1 == k)).map (fun kv => kv.2)

/-- Allocator invariant: every mapping key has been issued. -/
def AllocState.WF (st : AllocState) : Prop :=
  ∀ kv ∈ st.toolNameMapping, kv.1 ∈ st.usedShortNames

/-- The abbreviated-or-hashed candidate of the non-verbatim path: abbreviate
both fragments, and replace them by 8-character hash digests when the
abbreviated candidate still exceeds 60 characters. -/
def genCandidate (operation serviceId entityName : String) : String :=
  let serviceAbbr := abbreviateServiceId serviceId
  let entityAbbr := abbreviateEntityName entityName
  let candidate := operation ++ "-" ++ serviceAbbr ++ "-" ++ entityAbbr
  if candidate.length > 60 then
    operation ++ "-" ++ getShortHash serviceId 8 ++ "-" ++
      getShortHash entityName 8
  else candidate

/-- The collision loop of `generateShortToolName`: keep the candidate when
unused, else append `-1`, `-2`, ... truncating the base to stay within 64
characters, until the name is fresh (`used.length + 1` rounds always
suffice). -/
def resolveCollision (used : List String) (candidate : String) : String :=
  if ¬ used.contains candidate then candidate
  else
    match collideLoop used candidate (used.length + 1) 1 with
    | some n => n
    | none => candidate

/-- `generateShortToolName`: verbatim name when short enough (returned
without touching the state — exactly as the source does), else abbreviation,
then hashing when still over 60, then suffixed collision resolution; the
resolved name is recorded in both the used set and the mapping table. -/
def generateShortToolName (st : AllocState)
    (operation serviceId entityName : String) : String × AllocState :=
  let candidate0 := operation ++ "-" ++ serviceId ++ "-" ++ entityName
  if candidate0.length ≤ 64 then (candidate0, st)
  else
    let finalName := resolveCollision st.usedShortNames
      (genCandidate operation serviceId entityName)
    (finalName,
      { usedShortNames := finalName :: st.usedShortNames
        toolNameMapping := st.toolNameMapping ++
          [(finalName,
            operation ++ "--" ++ serviceId ++ "--" ++ entityName)] })

/-! ## Decimal-digit lemmas for the collision suffix -/

theorem digitChar_toNat (d : Nat) (h : d < 10) :
    (digitChar d).toNat = 48 + d := by
  unfold digitChar
  exact char_ofNat_toNat_eq _ (by left; omega)

theorem digitChar_ne_dash (d : Nat) (h : d < 10) : digitChar d ≠ '-' := by
  intro he
  have h1 := congrArg Char.toNat he
  rw [digitChar_toNat d h] at h1
  have h2 : ('-').toNat = 45 := by decide
  omega

theorem decDigits_ne_nil (n : Nat) : decDigits n ≠ [] := by
  unfold decDigits decDigitsAux
  by_cases h : n < 10 <;> simp [h]

theorem decDigitsAux_mem : ∀ (fuel n : Nat), n < fuel →
    ∀ c ∈ decDigitsAux fuel n, ∃ d, d < 10 ∧ c = digitChar d
  | 0, n, h => by omega
  | fuel + 1, n, h => by
      intro c hc
      unfold decDigitsAux at hc
      by_cases h10 : n < 10
      · rw [if_pos h10] at hc
        simp at hc
        exact ⟨n, h10, hc⟩
      · rw [if_neg h10] at hc
        rcases List.mem_append.mp hc with hl | hr
        · exact decDigitsAux_mem fuel (n / 10) (by omega) c hl
        · simp at hr
          exact ⟨n % 10, by omega, hr⟩

theorem decDigits_ne_dash (n : Nat) : ∀ c ∈ decDigits n, c ≠ '-' := by
  intro c hc
  obtain ⟨d, hd, rfl⟩ := decDigitsAux_mem (n + 1) n (by omega) c hc
  exact digitChar_ne_dash d hd

/-- Numeric value of a digit string (decoder for injectivity). -/
def digitsVal (ds : List Char) : Nat :=
  ds.foldl (fun acc c => acc * 10 + (c.toNat - 48)) 0

theorem digitsVal_append (ds : List Char) (c : Char) :
    digitsVal (ds ++ [c]) = digitsVal ds * 10 + (c.toNat - 48) := by
  unfold digitsVal
  rw [List.foldl_append]
  rfl

theorem digitsVal_decDigitsAux : ∀ (fuel n : Nat), n < fuel →
    digitsVal (decDigitsAux fuel n) = n
  | 0, n, h => by omega
  | fuel + 1, n, h => by
      unfold decDigitsAux
      by_cases h10 : n < 10
      · rw [if_pos h10]
        show digitsVal ([] ++ [digitChar n]) = n
        rw [digitsVal_append, digitChar_toNat n h10]
        simp [digitsVal]
      · rw [if_neg h10]
        rw [digitsVal_append, digitsVal_decDigitsAux fuel (n / 10) (by omega),
          digitChar_toNat (n % 10) (by omega)]
        omega

theorem decDigits_inj {m n : Nat} (h : decDigits m = decDigits n) : m = n := by
  have hm := digitsVal_decDigitsAux (m + 1) m (by omega)
  have hn := digitsVal_decDigitsAux (n + 1) n (by omega)
  unfold decDigits at h
  rw [h] at hm
  rw [hn] at hm
  exact hm.symm

theorem decDigitsAux_length_le : ∀ (fuel n k : Nat), n < fuel → n < 10 ^ k →
    1 ≤ k → (decDigitsAux fuel n).length ≤ k
  | 0, n, k, h, _, _ => by omega
  | fuel + 1, n, k, h, hk, hk1 => by
      unfold decDigitsAux
      by_cases h10 : n < 10
      · rw [if_pos h10]
        simpa using hk1
      · rw [if_neg h10]
        have hk2 : 2 ≤ k := by
          by_contra hlt
          have : k = 1 := by omega
          subst this
          simp at hk
          omega
        have hdiv : n / 10 < 10 ^ (k - 1) := by
          have h1 : 10 ^ k = 10 ^ (k - 1) * 10 := by
            have hkk : k - 1 + 1 = k := by omega
            conv_lhs => rw [← hkk]
            rw [pow_succ]
          rw [Nat.div_lt_iff_lt_mul (by omega)]
          omega
        have := decDigitsAux_length_le fuel (n / 10) (k - 1) (by omega) hdiv
          (by omega)
        simp only [List.length_append, List.length_cons, List.length_nil]
        omega

theorem decDigits_length_le {n k : Nat} (hk : n < 10 ^ k) (hk1 : 1 ≤ k) :
    (decDigits n).length ≤ k :=
  decDigitsAux_length_le (n + 1) n k (by omega) hk hk1

/-! ## Suffix-candidate lemmas -/

theorem suffixName_data (candidate : String) (i : Nat) :
    (suffixName candidate i).data =
      candidate.data.take (63 - (decDigits i).length) ++
        '-' :: decDigits i := by
  unfold suffixName substrTo
  dsimp only
  rw [String.data_append, String.data_append]
  have hc : 64 - ("-" ++ String.mk (decDigits i)).length =
      63 - (decDigits i).length := by
    show 64 - ('-' :: decDigits i).length = 63 - (decDigits i).length
    simp only [List.length_cons]
    omega
  rw [hc]
  rfl

theorem suffixName_length_le (candidate : String) (i : Nat)
    (h : (decDigits i).length ≤ 63) :
    (suffixName candidate i).length ≤ 64 := by
  show ((suffixName candidate i).data).length ≤ 64
  rw [suffixName_data]
  rw [List.length_append, List.length_cons, List.length_take]
  have := min_le_left (63 - (decDigits i).length) candidate.data.length
  omega

theorem suffixName_ne_of_length_lt (candidate : String) (i j : Nat)
    (hr : (decDigits i).length < (decDigits j).length) :
    suffixName candidate i ≠ suffixName candidate j := by
  intro he
  have hdata : candidate.data.take (63 - (decDigits i).length) ++
      '-' :: decDigits i =
      candidate.data.take (63 - (decDigits j).length) ++
        '-' :: decDigits j := by
    rw [← suffixName_data, ← suffixName_data, he]
  have hlen := congrArg List.length hdata
  rw [List.length_append, List.length_append, List.length_cons,
    List.length_cons, List.length_take, List.length_take] at hlen
  have hmono : min (63 - (decDigits j).length) candidate.data.length ≤
      min (63 - (decDigits i).length) candidate.data.length :=
    min_le_min (by omega) le_rfl
  have hdelta : (candidate.data.take (63 - (decDigits i).length)).length =
      (candidate.data.take (63 - (decDigits j).length)).length +
        ((decDigits j).length - (decDigits i).length) := by
    rw [List.length_take, List.length_take]
    omega
  have hdrop := congrArg
    (List.drop (candidate.data.take (63 - (decDigits i).length)).length)
    hdata
  rw [List.drop_left] at hdrop
  rw [hdelta, List.drop_append] at hdrop
  have hdj : '-' :: decDigits i = (decDigits j).drop
      ((decDigits j).length - (decDigits i).length - 1) := by
    rw [hdrop, show (decDigits j).length - (decDigits i).length =
      ((decDigits j).length - (decDigits i).length - 1) + 1 from by omega,
      List.drop_succ_cons]
    congr 1
  have hmem : ('-' : Char) ∈ (decDigits j).drop
      ((decDigits j).length - (decDigits i).length - 1) := by
    rw [← hdj]
    simp
  exact decDigits_ne_dash j '-' (List.mem_of_mem_drop hmem) rfl

theorem suffixName_inj (candidate : String) :
    Function.Injective (suffixName candidate) := by
  intro i j he
  rcases lt_trichotomy (decDigits i).length (decDigits j).length with
    hlt | heq | hgt
  · exact absurd he (suffixName_ne_of_length_lt candidate i j hlt)
  · have hdata : candidate.data.take (63 - (decDigits i).length) ++
        '-' :: decDigits i =
        candidate.data.take (63 - (decDigits j).length) ++
          '-' :: decDigits j := by
      rw [← suffixName_data, ← suffixName_data, he]
    rw [heq] at hdata
    have hcons := List.append_cancel_left hdata
    have hdd : decDigits i = decDigits j := by injection hcons
    exact decDigits_inj hdd
  · exact absurd he.symm (suffixName_ne_of_length_lt candidate j i hgt)

/-! ## Collision-loop lemmas -/

theorem collideLoop_none_mem (used : List String) (candidate : String) :
    ∀ (fuel counter : Nat),
      collideLoop used candidate fuel counter = none →
      ∀ i, counter ≤ i → i < counter + fuel →
        suffixName candidate i ∈ used
  | 0, counter, _, i, h1, h2 => by omega
  | fuel + 1, counter, h, i, h1, h2 => by
      unfold collideLoop at h
      by_cases hc : used.contains (suffixName candidate counter) = true
      · rw [if_pos hc] at h
        rcases Nat.eq_or_lt_of_le h1 with rfl | hlt
        · exact List.elem_iff.mp hc
        · exact collideLoop_none_mem used candidate fuel (counter + 1) h i hlt
            (by omega)
      · rw [if_neg hc] at h
        cases h

theorem collideLoop_some_spec (used : List String) (candidate : String) :
    ∀ (fuel counter : Nat) (name : String),
      collideLoop used candidate fuel counter = some name →
      name ∉ used ∧ ∃ k, counter ≤ k ∧ k < counter + fuel ∧
        name = suffixName candidate k
  | 0, counter, name, h => by cases h
  | fuel + 1, counter, name, h => by
      unfold collideLoop at h
      by_cases hc : used.contains (suffixName candidate counter) = true
      · rw [if_pos hc] at h
        obtain ⟨hn, k, hk1, hk2, hk3⟩ :=
          collideLoop_some_spec used candidate fuel (counter + 1) name h
        exact ⟨hn, k, by omega, by omega, hk3⟩
      · rw [if_neg hc] at h
        cases h
        refine ⟨fun hmem => hc (List.elem_iff.mpr hmem), counter, le_rfl,
          by omega, rfl⟩

theorem collideLoop_total (used : List String) (candidate : String) :
    collideLoop used candidate (used.length + 1) 1 ≠ none := by
  intro h
  have hmem := collideLoop_none_mem used candidate (used.length + 1) 1 h
  have hsub : ((List.range' 1 (used.length + 1)).map
      (suffixName candidate)) ⊆ used := by
    intro x hx
    obtain ⟨i, hi, rfl⟩ := List.mem_map.mp hx
    obtain ⟨k, hk, rfl⟩ := List.mem_range'.mp hi
    exact hmem _ (by omega) (by omega)
  have hnodup : ((List.range' 1 (used.length + 1)).map
      (suffixName candidate)).Nodup :=
    (List.nodup_range' 1 (used.length + 1)).map (suffixName_inj candidate)
  have hcard : ((List.range' 1 (used.length + 1)).map
      (suffixName candidate)).toFinset.card = used.length + 1 := by
    rw [List.toFinset_card_of_nodup hnodup]
    simp
  have hle : ((List.range' 1 (used.length + 1)).map
      (suffixName candidate)).toFinset.card ≤ used.toFinset.card := by
    apply Finset.card_le_card
    intro x hx
    rw [List.mem_toFinset] at hx ⊢
    exact hsub hx
  have := List.toFinset_card_le used
  omega

theorem hexDigits_length : ∀ (n v : Nat), (hexDigits n v).length = n
  | 0, _ => rfl
  | n + 1, v => by
      unfold hexDigits
      rw [List.length_cons, hexDigits_length n (v / 16)]

theorem getShortHash_length (input : String) (n : Nat) :
    (getShortHash input n).length = n := by
  unfold getShortHash
  exact hexDigits_length n _

/-! ## Resolution lemmas and the C2 theorem -/

theorem resolveCollision_not_mem (used : List String) (cand : String) :
    resolveCollision used cand ∉ used := by
  unfold resolveCollision
  by_cases hc : used.contains cand = true
  · simp only [hc, not_true_eq_false, if_false]
    cases hl : collideLoop used cand (used.length + 1) 1 with
    | none => exact absurd hl (collideLoop_total used cand)
    | some n => exact (collideLoop_some_spec used cand _ _ n hl).1
  · simp only [hc, not_false_eq_true, if_true]
    intro hmem
    exact hc (List.elem_iff.mpr hmem)

theorem resolveCollision_cases (used : List String) (cand : String) :
    resolveCollision used cand = cand ∨
    ∃ k, 1 ≤ k ∧ k ≤ used.length + 1 ∧
      resolveCollision used cand = suffixName cand k := by
  unfold resolveCollision
  by_cases hc : used.contains cand = true
  · simp only [hc, not_true_eq_false, if_false]
    cases hl : collideLoop used cand (used.length + 1) 1 with
    | none => exact Or.inl rfl
    | some n =>
      obtain ⟨_, k, hk1, hk2, rfl⟩ := collideLoop_some_spec used cand _ _ n hl
      exact Or.inr ⟨k, hk1, by omega, rfl⟩
  · simp only [hc, not_false_eq_true, if_true]
    exact Or.inl rfl

theorem genCandidate_length (operation serviceId entityName : String)
    (hop : operation.length ≤ 46) :
    (genCandidate operation serviceId entityName).length ≤ 64 := by
  unfold genCandidate
  dsimp only
  split_ifs with h
  · simp only [String.length_append, getShortHash_length]
    have h1 : ("-" : String).length = 1 := rfl
    omega
  · omega

theorem resolveCollision_length (used : List String) (cand : String)
    (hcand : cand.length ≤ 64) (hused : used.length + 1 < 10 ^ 63) :
    (resolveCollision used cand).length ≤ 64 := by
  rcases resolveCollision_cases used cand with heq | ⟨k, hk1, hk2, heq⟩
  · rw [heq]; exact hcand
  · rw [heq]
    apply suffixName_length_le
    exact decDigits_length_le (by omega) (by omega)

/-- C2 (amended): on one allocator instance, an allocation whose verbatim
candidate `operation-serviceId-entityName` is at most 64 characters returns
it without recording anything (so a repeated triple returns the same —
not a distinct — name, and no mapping entry is made: the counterexample);
every other allocation returns a name that is fresh with respect to the
recorded set, records it in the used set and appends the short-to-long
mapping entry; the new entry is at a previously unmapped key, existing
entries are never changed, the mapping-keys-are-recorded invariant is
preserved, and the returned name is at most 64 characters whenever the
operation fragment is at most 46 characters (all real operation names) and
fewer than 10^63 names are in use (always, in practice). -/
theorem generateShortToolName_spec (st : AllocState)
    (operation serviceId entityName : String) (hwf : st.WF) :
    ((operation ++ "-" ++ serviceId ++ "-" ++ entityName).length ≤ 64 →
      generateShortToolName st operation serviceId entityName =
        (operation ++ "-" ++ serviceId ++ "-" ++ entityName, st)) ∧
    (¬ (operation ++ "-" ++ serviceId ++ "-" ++ entityName).length ≤ 64 →
      (generateShortToolName st operation serviceId entityName).1 ∉
        st.usedShortNames ∧
      (generateShortToolName st operation serviceId
          entityName).2.usedShortNames =
        (generateShortToolName st operation serviceId entityName).1 ::
          st.usedShortNames ∧
      (generateShortToolName st operation serviceId
          entityName).2.toolNameMapping =
        st.toolNameMapping ++
          [((generateShortToolName st operation serviceId entityName).1,
            operation ++ "--" ++ serviceId ++ "--" ++ entityName)] ∧
      st.lookupMapping
        (generateShortToolName st operation serviceId entityName).1 = none ∧
      (∀ k, k ≠ (generateShortToolName st operation serviceId entityName).1 →
        (generateShortToolName st operation serviceId
          entityName).2.lookupMapping k = st.lookupMapping k) ∧
      (generateShortToolName st operation serviceId entityName).2.WF ∧
      (operation.length ≤ 46 → st.usedShortNames.length + 1 < 10 ^ 63 →
        (generateShortToolName st operation serviceId
          entityName).1.length ≤ 64)) := by
  constructor
  · intro h
    unfold generateShortToolName
    rw [if_pos h]
  · intro h
    have hgen : generateShortToolName st operation serviceId entityName =
        (resolveCollision st.usedShortNames
            (genCandidate operation serviceId entityName),
          { usedShortNames := resolveCollision st.usedShortNames
              (genCandidate operation serviceId entityName) ::
                st.usedShortNames
            toolNameMapping := st.toolNameMapping ++
              [(resolveCollision st.usedShortNames
                  (genCandidate operation serviceId entityName),
                operation ++ "--" ++ serviceId ++ "--" ++ entityName)] }) := by
      unfold generateShortToolName
      rw [if_neg h]
    rw [hgen]
    dsimp only
    have hfresh := resolveCollision_not_mem st.usedShortNames
      (genCandidate operation serviceId entityName)
    refine ⟨hfresh, rfl, rfl, ?_, ?_, ?_, ?_⟩
    · unfold AllocState.lookupMapping
      rw [List.find?_eq_none.mpr]
      · rfl
      · intro kv hkv hbeq
        have heq := beq_iff_eq.mp hbeq
        exact hfresh (heq ▸ hwf kv hkv)
    · intro k hk
      unfold AllocState.lookupMapping
      dsimp only
      rw [List.find?_append]
      have hsingle : List.find? (fun kv => kv.1 == k)
          [(resolveCollision st.usedShortNames
              (genCandidate operation serviceId entityName),
            operation ++ "--" ++ serviceId ++ "--" ++ entityName)] = none := by
        rw [List.find?_eq_none.mpr]
        intro kv hkv hbeq
        simp at hkv
        rw [hkv] at hbeq
        exact hk (beq_iff_eq.mp hbeq).symm
      rw [hsingle]
      cases List.find? (fun kv => kv.1 == k) st.toolNameMapping <;> rfl
    · intro kv hkv
      dsimp only at hkv ⊢
      rcases List.mem_append.mp hkv with hold | hnew
      · exact List.mem_cons_of_mem _ (hwf kv hold)
      · simp at hnew
        rw [hnew]
        exact List.mem_cons_self _ _
    · intro hop hused
      exact resolveCollision_length st.usedShortNames _
        (genCandidate_length operation serviceId entityName hop) hused

/-- C2 counterexample: two allocations of the same triple on a fresh
allocator both return the verbatim name `read-SVC-Item` — the second returned
name is not distinct from the first — and neither allocation records any
short-to-long mapping. -/
theorem c2_counterexample :
    (generateShortToolName AllocState.empty "read" "SVC" "Item").1 =
      "read-SVC-Item" ∧
    (generateShortToolName
        (generateShortToolName AllocState.empty "read" "SVC" "Item").2
        "read" "SVC" "Item").1 = "read-SVC-Item" ∧
    (generateShortToolName
        (generateShortToolName AllocState.empty "read" "SVC" "Item").2
        "read" "SVC" "Item").2.toolNameMapping = [] := by
  decide

/-- A service id long enough to force the abbreviation path. -/
def c2wServiceId : String := "ZBP_BUSINESS_PARTNER_MANAGEMENT_SRV_0001"

/-- An entity name long enough to force the abbreviation path. -/
def c2wEntityName : String := "BusinessPartnerAddressInformation"

theorem generateShortToolName_spec_witness :
    (generateShortToolName AllocState.empty "read" c2wServiceId
        c2wEntityName).1 ∉ ([] : List String) ∧
    (generateShortToolName AllocState.empty "read" c2wServiceId
        c2wEntityName).2.toolNameMapping =
      [((generateShortToolName AllocState.empty "read" c2wServiceId
          c2wEntityName).1,
        "read" ++ "--" ++ c2wServiceId ++ "--" ++ c2wEntityName)] ∧
    (generateShortToolName AllocState.empty "read" c2wServiceId
        c2wEntityName).1.length ≤ 64 ∧
    (generateShortToolName AllocState.empty "read" c2wServiceId
        c2wEntityName).2.WF := by
  have h := generateShortToolName_spec AllocState.empty "read" c2wServiceId
    c2wEntityName (fun kv hkv => by cases hkv)
  have h2 := h.2 (by decide)
  exact ⟨h2.1, h2.2.2.1, h2.2.2.2.2.2.2 (by decide) (by decide),
    h2.2.2.2.2.2.1⟩

end SapMcp
